import Mathlib

/-!
Verification of the ESB-artifact classification and extraction core
(`server/parsers/*` and the parser registry).

The development is a shallow embedding of the TypeScript source:

* file contents and strings are `List Char` (`Buffer.toString('utf8')` is the
  identity in this model; byte offsets such as the 1000-byte prefix read by
  `isXmlContent` are modelled as character offsets);
* the specific regular expressions appearing in the source are mirrored by a
  small backtracking matcher over an explicit pattern type `RE` covering
  exactly the constructs those regexes use: literals, greedy negated character
  classes `[^c]*`, and lazy `[\s\S]*?`, with optional case-insensitive (`i`)
  matching and global (`g`) scanning.  Interpolated service names inside
  dynamically built regexes are treated as literal characters;
* `JSON.parse` is mirrored by an executable JSON parser `jsonParse`
  (fuel-indexed, with ample fuel); JavaScript dynamic behaviour that the
  source relies on (truthiness, `x || y`, property access throwing on `null`,
  `for...of` over non-arrays) is modelled explicitly;
* exceptions are `Except`: the registry's "No parser found" error and the
  per-parser catch-all wrappers become distinct `ParseError` constructors
  (error message texts are abstracted);
* `new Date().toISOString()` is modelled by threading an arbitrary `now`
  argument, which flows only into `metadata.parsedAt`.
-/

set_option maxRecDepth 100000

/-! ## Character-list string helpers -/

/-- Characters of a string literal. -/
def cs (s : String) : List Char := s.data

/-- Mirrors JavaScript `String.prototype.toLowerCase` (ASCII-adequate). -/
def lowerCs (s : List Char) : List Char := s.map Char.toLower

/-- Mirrors JavaScript `String.prototype.toUpperCase` (ASCII-adequate). -/
def upperCs (s : List Char) : List Char := s.map Char.toUpper

/-- Mirrors JavaScript `String.prototype.includes`. -/
def containsSub (s pat : List Char) : Bool :=
  match s with
  | [] => pat.isEmpty
  | _ :: t => pat.isPrefixOf s || containsSub t pat

/-- Mirrors JavaScript `String.prototype.indexOf` (`none` for `-1`). -/
def idxOfSub (s pat : List Char) : Option Nat :=
  match s with
  | [] => if pat.isEmpty then some 0 else none
  | _ :: t => if pat.isPrefixOf s then some 0 else (idxOfSub t pat).map (· + 1)

/-- Whitespace characters for `String.prototype.trim`. -/
def jsWsChar (c : Char) : Bool :=
  c == ' ' || c == '\t' || c == '\n' || c == '\r' || c == '\x0b' || c == '\x0c'

/-- Mirrors JavaScript `String.prototype.trim`. -/
def trimCs (s : List Char) : List Char :=
  ((s.dropWhile jsWsChar).reverse.dropWhile jsWsChar).reverse

/-- Decimal rendering of a natural number, as used for 1-based ordinals in
synthesized names such as `HTTP_Listener_1`. -/
def natCs (n : Nat) : List Char := (Nat.repr n).data

/-- Mirrors JavaScript `String.prototype.split(',')`. -/
def splitOnComma (s : List Char) : List (List Char) :=
  match s with
  | [] => [[]]
  | c :: t =>
    let r := splitOnComma t
    if c = ',' then [] :: r
    else
      match r with
      | [] => [[c]]
      | h :: t2 => (c :: h) :: t2

/-! ## A matcher for the regular expressions used by the source

The source uses regexes built from literal runs, `[^>]*`, `[^"]*`, `[^<]*`
(greedy), capture groups around such classes, and lazy `[\s\S]*?`.  `RE` lists
exactly these constructs; a pattern is a `List RE` (concatenation).  The
matcher returns the same match a backtracking engine (JavaScript's) returns:
alternatives are tried greedily (longest first) for `[^c]*` and lazily
(shortest first) for `[\s\S]*?`, leftmost match wins. -/

inductive RE where
  | lit (p : List Char)
  | notStar (c : Char)
  | grpNotStar (c : Char)
  | dotAllLazy

/-- Character comparison, optionally case-insensitive (the `i` flag). -/
def ciChar (ci : Bool) (a b : Char) : Bool :=
  if ci then a.toLower == b.toLower else a == b

/-- Literal-prefix test under optional case-insensitivity. -/
def litHead (ci : Bool) : List Char → List Char → Bool
  | [], _ => true
  | _ :: _, [] => false
  | p :: ps, c :: ss => ciChar ci p c && litHead ci ps ss

/-- One backtracking obligation: match a pattern suffix, or resume a greedy
`[^c]*` at width `n` counting down, or a lazy `[\s\S]*?` at width `n` with
`slack` widenings left.  (The stated width is tried first; on failure of the
continuation the next width is tried, exactly as a backtracking engine
does.) -/
inductive MatchJob where
  | seq (rs : List RE) (s : List Char)
  | greedy (rest : List RE) (s : List Char) (n : Nat) (grp : Bool)
  | lazy (rest : List RE) (s : List Char) (n : Nat) (slack : Nat)

/-- Run one match job; structural recursion on `fuel`, which callers choose
large enough that it is never exhausted (see `seqMatch`). -/
def reRun (ci : Bool) : Nat → MatchJob → Option (Nat × List (List Char))
  | 0, _ => none
  | _ + 1, .seq [] _ => some (0, [])
  | f + 1, .seq (RE.lit p :: rest) s =>
    if litHead ci p s then
      match reRun ci f (.seq rest (s.drop p.length)) with
      | some (n, gs) => some (p.length + n, gs)
      | none => none
    else none
  | f + 1, .seq (RE.notStar c :: rest) s =>
    reRun ci f (.greedy rest s ((s.takeWhile (fun a => !ciChar ci a c)).length) false)
  | f + 1, .seq (RE.grpNotStar c :: rest) s =>
    reRun ci f (.greedy rest s ((s.takeWhile (fun a => !ciChar ci a c)).length) true)
  | f + 1, .seq (RE.dotAllLazy :: rest) s =>
    reRun ci f (.lazy rest s 0 s.length)
  | f + 1, .greedy rest s n grp =>
    match reRun ci f (.seq rest (s.drop n)) with
    | some (m, gs) => some (n + m, if grp then s.take n :: gs else gs)
    | none =>
      match n with
      | 0 => none
      | n' + 1 => reRun ci f (.greedy rest s n' grp)
  | f + 1, .lazy rest s n slack =>
    match reRun ci f (.seq rest (s.drop n)) with
    | some (m, gs) => some (n + m, gs)
    | none =>
      match slack with
      | 0 => none
      | k + 1 => reRun ci f (.lazy rest s (n + 1) k)

/-- Match a pattern at the start of `s`; returns the length consumed and the
captured groups (in order) of the preferred (backtracking-first) match.  The
nesting depth of `reRun` is at most `(|rs|+1)*(|s|+4)`, so this fuel never
runs out. -/
def seqMatch (ci : Bool) (rs : List RE) (s : List Char) :
    Option (Nat × List (List Char)) :=
  reRun ci ((rs.length + 1) * (s.length + 4)) (.seq rs s)

/-- Leftmost match: position, length and captures. -/
def searchIn (ci : Bool) (pat : List RE) : List Char → Option (Nat × Nat × List (List Char))
  | [] => (seqMatch ci pat []).map (fun p => (0, p.1, p.2))
  | c :: t =>
    match seqMatch ci pat (c :: t) with
    | some (n, gs) => some (0, n, gs)
    | none => (searchIn ci pat t).map (fun p => (p.1 + 1, p.2.1, p.2.2))

/-- First capture group of the leftmost match (`s.match(re)?.[1]`). -/
def firstCapture (ci : Bool) (pat : List RE) (s : List Char) : Option (List Char) :=
  match searchIn ci pat s with
  | some (_, _, g :: _) => some g
  | _ => none

/-- Whole text of the leftmost match (`s.match(re)?.[0]`). -/
def firstWhole (ci : Bool) (pat : List RE) (s : List Char) : Option (List Char) :=
  (searchIn ci pat s).map (fun p => (s.drop p.1).take p.2.1)

/-- Iteration for global scanning; fuel bounds the number of matches. -/
def allMatchesGo (ci : Bool) (pat : List RE) : Nat → List Char → List (List Char)
  | 0, _ => []
  | fuel + 1, s =>
    match searchIn ci pat s with
    | none => []
    | some (i, l, _) =>
      ((s.drop i).take l) :: allMatchesGo ci pat fuel (s.drop (i + max l 1))

/-- Mirrors `s.match(/re/g)`: all non-overlapping matches, left to right
(`[]` both for JavaScript's `null` and for no iteration). -/
def allMatches (ci : Bool) (pat : List RE) (s : List Char) : List (List Char) :=
  allMatchesGo ci pat (s.length + 1) s

/-! ## JSON values and `JSON.parse`

`Json` models the values `JSON.parse` can produce.  Numbers are kept as their
lexemes; the only observation the source makes of a number is truthiness. -/

inductive Json where
  | null
  | bool (b : Bool)
  | num (lexeme : List Char)
  | str (s : List Char)
  | arr (elems : List Json)
  | obj (fields : List (List Char × Json))

instance : Inhabited Json := ⟨Json.null⟩

/-- JSON whitespace (RFC 8259, as accepted by `JSON.parse`). -/
def jsonWsChar (c : Char) : Bool :=
  c == ' ' || c == '\t' || c == '\n' || c == '\r'

def skipJsonWs (s : List Char) : List Char := s.dropWhile jsonWsChar

def hexVal (c : Char) : Option Nat :=
  if '0' ≤ c ∧ c ≤ '9' then some (c.toNat - '0'.toNat)
  else if 'a' ≤ c ∧ c ≤ 'f' then some (c.toNat - 'a'.toNat + 10)
  else if 'A' ≤ c ∧ c ≤ 'F' then some (c.toNat - 'A'.toNat + 10)
  else none

/-- Body of a JSON string literal after the opening quote: returns the decoded
characters and the input remaining after the closing quote. -/
def jsonStrBody : List Char → Option (List Char × List Char)
  | [] => none
  | c :: t =>
    if c = '"' then some ([], t)
    else if c = '\\' then
      match t with
      | [] => none
      | e :: t2 =>
        if e = '"' then (jsonStrBody t2).map (fun p => ('"' :: p.1, p.2))
        else if e = '\\' then (jsonStrBody t2).map (fun p => ('\\' :: p.1, p.2))
        else if e = '/' then (jsonStrBody t2).map (fun p => ('/' :: p.1, p.2))
        else if e = 'n' then (jsonStrBody t2).map (fun p => ('\n' :: p.1, p.2))
        else if e = 't' then (jsonStrBody t2).map (fun p => ('\t' :: p.1, p.2))
        else if e = 'r' then (jsonStrBody t2).map (fun p => ('\r' :: p.1, p.2))
        else if e = 'b' then (jsonStrBody t2).map (fun p => ('\x08' :: p.1, p.2))
        else if e = 'f' then (jsonStrBody t2).map (fun p => ('\x0c' :: p.1, p.2))
        else if e = 'u' then
          match t2 with
          | h1 :: h2 :: h3 :: h4 :: t3 =>
            match hexVal h1, hexVal h2, hexVal h3, hexVal h4 with
            | some a, some b, some c2, some d =>
              (jsonStrBody t3).map
                (fun p => (Char.ofNat (((a * 16 + b) * 16 + c2) * 16 + d) :: p.1, p.2))
            | _, _, _, _ => none
          | _ => none
        else none
    else if c.toNat < 32 then none
    else (jsonStrBody t).map (fun p => (c :: p.1, p.2))

/-- Fraction part `.digits` (or nothing). -/
def jsonFrac : List Char → Option (List Char × List Char)
  | '.' :: t =>
    let ds := t.takeWhile Char.isDigit
    if ds.isEmpty then none else some ('.' :: ds, t.dropWhile Char.isDigit)
  | s => some ([], s)

/-- Exponent part `[eE][+-]?digits` (or nothing). -/
def jsonExp : List Char → Option (List Char × List Char)
  | [] => some ([], [])
  | c :: t =>
    if c = 'e' ∨ c = 'E' then
      match t with
      | [] => none
      | sgn :: t2 =>
        if sgn = '+' ∨ sgn = '-' then
          let ds := t2.takeWhile Char.isDigit
          if ds.isEmpty then none else some (c :: sgn :: ds, t2.dropWhile Char.isDigit)
        else
          let ds := t.takeWhile Char.isDigit
          if ds.isEmpty then none else some (c :: ds, t.dropWhile Char.isDigit)
    else some ([], c :: t)

/-- JSON number lexeme (strict grammar: no leading zeros, no bare `.`). -/
def jsonNumLexeme (s : List Char) : Option (List Char × List Char) :=
  let sp : List Char × List Char :=
    match s with
    | '-' :: t => (['-'], t)
    | _ => ([], s)
  match sp.2 with
  | [] => none
  | c :: t =>
    if ¬c.isDigit then none
    else
      let ip : List Char × List Char :=
        if c = '0' then (['0'], t)
        else ((c :: t).takeWhile Char.isDigit, (c :: t).dropWhile Char.isDigit)
      match jsonFrac ip.2 with
      | none => none
      | some (fp, r2) =>
        match jsonExp r2 with
        | none => none
        | some (ep, r3) => some (sp.1 ++ ip.1 ++ fp ++ ep, r3)

def jsonLBrace : Char := Char.ofNat 123
def jsonRBrace : Char := Char.ofNat 125

/-- One parsing obligation: a value, the members of an object, or the
elements of an array (with the pairs/elements accumulated so far). -/
inductive JsonJob where
  | val
  | members (acc : List (List Char × Json))
  | elems (acc : List Json)

/-- Run one JSON parsing job; structural recursion on fuel, which `jsonParse`
chooses large enough that it is never exhausted. -/
def jsonRun : Nat → JsonJob → List Char → Option (Json × List Char)
  | 0, _, _ => none
  | f + 1, .val, s =>
    match skipJsonWs s with
    | [] => none
    | c :: t =>
      if c = '"' then (jsonStrBody t).map (fun p => (Json.str p.1, p.2))
      else if c = jsonLBrace then
        match skipJsonWs t with
        | [] => none
        | c2 :: t2 =>
          if c2 = jsonRBrace then some (Json.obj [], t2)
          else jsonRun f (.members []) (c2 :: t2)
      else if c = '[' then
        match skipJsonWs t with
        | [] => none
        | c2 :: t2 =>
          if c2 = ']' then some (Json.arr [], t2)
          else jsonRun f (.elems []) (c2 :: t2)
      else if litHead false (cs "true") (c :: t) then some (Json.bool true, (c :: t).drop 4)
      else if litHead false (cs "false") (c :: t) then some (Json.bool false, (c :: t).drop 5)
      else if litHead false (cs "null") (c :: t) then some (Json.null, (c :: t).drop 4)
      else (jsonNumLexeme (c :: t)).map (fun p => (Json.num p.1, p.2))
  | f + 1, .members acc, s =>
    match skipJsonWs s with
    | [] => none
    | c :: t =>
      if c = '"' then
        match jsonStrBody t with
        | none => none
        | some (key, r) =>
          match skipJsonWs r with
          | ':' :: r2 =>
            match jsonRun f .val r2 with
            | none => none
            | some (v, r3) =>
              match skipJsonWs r3 with
              | [] => none
              | c4 :: r4 =>
                if c4 = ',' then jsonRun f (.members (acc ++ [(key, v)])) r4
                else if c4 = jsonRBrace then some (Json.obj (acc ++ [(key, v)]), r4)
                else none
          | _ => none
      else none
  | f + 1, .elems acc, s =>
    match jsonRun f .val s with
    | none => none
    | some (v, r) =>
      match skipJsonWs r with
      | ',' :: r2 => jsonRun f (.elems (acc ++ [v])) r2
      | ']' :: r2 => some (Json.arr (acc ++ [v]), r2)
      | _ => none

/-- Mirrors `JSON.parse`: `none` when parsing throws.  The fuel `4*|s|+4`
strictly dominates the recursion depth reachable on an input of length `|s|`. -/
def jsonParse (s : List Char) : Option Json :=
  match jsonRun (4 * s.length + 4) .val s with
  | some (v, rest) => if (skipJsonWs rest).isEmpty then some v else none
  | none => none

/-! ## JavaScript dynamic semantics used by the parsers -/

/-- JavaScript truthiness of a JSON-produced value. -/
def jsTruthy : Json → Bool
  | .null => false
  | .bool b => b
  | .num lx =>
    !((lx.takeWhile (fun c => !(c == 'e' || c == 'E'))).filter Char.isDigit).all (· == '0')
  | .str s => !s.isEmpty
  | .arr _ => true
  | .obj _ => true

/-- Truthiness of a possibly-`undefined` value (`none` is `undefined`). -/
def jsOptTruthy : Option Json → Bool
  | none => false
  | some j => jsTruthy j

/-- Property access `base[key]`: throws on `null`, yields `undefined` on
non-objects, last binding wins for duplicate keys. -/
def jsField : Json → List Char → Except (List Char) (Option Json)
  | .null, _ => .error (cs "cannot read properties of null")
  | .obj fs, key => .ok (fs.foldl (fun acc kv => if kv.1 = key then some kv.2 else acc) none)
  | _, _ => .ok none

/-- Optional chaining `base?.key`. -/
def jsOptChain (base : Option Json) (key : List Char) : Except (List Char) (Option Json) :=
  match base with
  | none => .ok none
  | some .null => .ok none
  | some j => jsField j key

/-- JavaScript `a || b` on possibly-`undefined` values. -/
def jsOr (a b : Option Json) : Option Json := if jsOptTruthy a then a else b

/-- JavaScript `a || d` where the fallback is a present value. -/
def jsOrVal (a : Option Json) (d : Json) : Json :=
  if jsOptTruthy a then a.getD Json.null else d

/-- JavaScript `a || b` on optional strings (an empty string is falsy). -/
def jsStrOr (a b : Option (List Char)) : Option (List Char) :=
  match a with
  | some v => if v.isEmpty then b else a
  | none => b

/-- JavaScript `a || d` on an optional string with present fallback. -/
def jsStrOrD (a : Option (List Char)) (d : List Char) : List Char :=
  match a with
  | some v => if v.isEmpty then d else v
  | none => d

/-- Mirrors `for...of` (arrays iterate elements, strings iterate characters,
all other values throw `TypeError`). -/
def jsIterate : Json → Except (List Char) (List Json)
  | .arr xs => .ok xs
  | .str s => .ok (s.map (fun c => Json.str [c]))
  | _ => .error (cs "value is not iterable")

/-- Effectful map in evaluation order, mirroring a `for...of` loop that pushes
one record per element (or a `.map` callback). -/
def exMapM (f : α → Except (List Char) β) : List α → Except (List Char) (List β)
  | [] => .ok []
  | x :: xs =>
    match f x with
    | .error e => .error e
    | .ok y =>
      match exMapM f xs with
      | .error e => .error e
      | .ok ys => .ok (y :: ys)

/-! ## `BaseParser` content sniffing and extension extraction -/

/-- Mirrors `BaseParser.extractFileExtension`:
`filename.split('.').pop()?.toLowerCase() || ''`. -/
def extractFileExtension (filename : List Char) : List Char :=
  lowerCs (filename.foldl (fun acc c => if c = '.' then [] else acc ++ [c]) [])

/-- Mirrors `BaseParser.isXmlContent`: looks at the first 1000 characters only,
accepts an XML prolog after trimming or any `<`. -/
def isXmlContent (content : List Char) : Bool :=
  let s := content.take 1000
  litHead false (cs "<?xml") (trimCs s) || containsSub s (cs "<")

/-- Mirrors `BaseParser.isJsonContent`: a full `JSON.parse` must succeed. -/
def isJsonContent (content : List Char) : Bool := (jsonParse content).isSome

/-! ## The unified output model (`shared/schema`'s `UnifiedService` etc.)

Field values carry the JavaScript values the extractors actually store:
`Option Json` is a possibly-`undefined` value, `List Char` a string that is
always assigned.  The TypeScript `type` annotation promises an enum, but the
model keeps a plain string so that the enum-ness is a provable property, not a
typing assumption. -/

structure UnifiedService where
  name : Option Json
  type : List Char
  platform : List Char
  endpoint : Option Json
  methods : Option (List Json)
  description : Option Json
  requestSchema : Option Json
  responseSchema : Option Json

/-- The `serviceConfig` object built by `OSBParser.extractServiceConfig`
(`\x7b\x7d` when the block regex fails, so every field may be `undefined`). -/
structure OsbConfig where
  type : Option (List Char)
  endpoint : Option (List Char)
  serviceUri : Option (List Char)
  endpointUri : Option (List Char)
  wsdlResource : Option (List Char)
  description : Option (List Char)
  methods : Option (List (List Char))
  requestSchema : Option (List Char)
  responseSchema : Option (List Char)

/-- The empty object returned when the `proxy-service` block regex fails. -/
def OsbConfig.empty : OsbConfig :=
  ⟨none, none, none, none, none, none, none, none, none⟩

/-- The flow/process config objects built by `MuleSoftParser.extractFlowConfig`
and `TibcoParser.extractProcessConfig` (same shape, may be `\x7b\x7d`). -/
structure FlowConfig where
  endpoint : Option (List Char)
  description : Option (List Char)
  methods : Option (List (List Char))
  requestSchema : Option (List Char)
  responseSchema : Option (List Char)

/-- The empty object returned when the block regex fails. -/
def FlowConfig.empty : FlowConfig := ⟨none, none, none, none, none⟩

/-- The opaque `configuration` payload each parser attaches to a proxy
record. -/
inductive ProxyConfiguration where
  | osb (config : OsbConfig)
  | muleXml (xml : List Char)
  | muleJson (connector : Json)
  | tibcoReceiver (xml : List Char)
  | boomi (connector : Json)

structure ProxyRecord where
  name : Option Json
  serviceUri : Option Json
  endpointUri : Option Json
  wsdlResource : Option Json
  configuration : ProxyConfiguration

/-- The opaque `mappingConfiguration` payload of a transformation record. -/
inductive MappingConfiguration where
  | xslt (xml : List Char)
  | dataweave (xml : List Char)
  | tibcoXml (xml : List Char)
  | boomiRules (rules : Option Json)
  | muleScript (script : Option Json)

structure TransformationRecord where
  name : Option Json
  type : Json
  sourceSchema : Option Json
  targetSchema : Option Json
  mappingConfiguration : MappingConfiguration

structure ParseMetadata where
  platform : List Char
  filename : List Char
  parsedAt : List Char
  serviceCount : Nat
  proxyServiceCount : Nat
  transformationCount : Nat

structure ParseResult where
  services : List UnifiedService
  proxyServices : List ProxyRecord
  transformations : List TransformationRecord
  metadata : ParseMetadata

/-- Errors surfaced by `parseFile`: the registry's own "No parser found for
file" error, and the per-parser `Failed to parse <platform> file` wrappers
(message text abstracted to the inner cause). -/
inductive ParseError where
  | noParserFound (filename : List Char)
  | parserFailure (platform : List Char) (cause : List Char)

/-- The extraction triple `(services, proxyServices, transformations)`
accumulated by every parser before it assembles its result. -/
abbrev Extracted := List UnifiedService × List ProxyRecord × List TransformationRecord

/-! ## Shared regex patterns

Each parser declares textually identical private helpers (`extractValue`, the
`name="..."` capture, the `>...<` capture); they are defined once here. -/

/-- The `/name="([^"]*)"/` regex used to pull the name out of a matched tag. -/
def namePat : List RE := [.lit (cs "name=\""), .grpNotStar '"', .lit (cs "\"")]

/-- The `/>([^<]*)</` regex used to pull the text out of a matched element. -/
def gtLtPat : List RE := [.lit (cs ">"), .grpNotStar '<', .lit (cs "<")]

/-- The `<tag[^>]*>([^<]*)</tag>` pattern of the parsers' `extractValue`. -/
def tagValuePat (tag : List Char) : List RE :=
  [.lit ('<' :: tag), .notStar '>', .lit (cs ">"), .grpNotStar '<',
   .lit (cs "</" ++ tag ++ cs ">")]

/-- Mirrors the identical private `extractValue(xml, tagName)` of the OSB,
Tibco and MuleSoft parsers (case-insensitive first match, trimmed). -/
def extractValue (xml : List Char) (tag : String) : Option (List Char) :=
  (firstCapture true (tagValuePat (cs tag)) xml).map trimCs

/-! ## OSB parser (`server/parsers/osb-parser.ts`) -/

namespace OSBParser

/-- Mirrors `OSBParser.canParse`. -/
def canParse (filename content : List Char) : Bool :=
  let ext := extractFileExtension filename
  if ext = cs "ear" ∨ ext = cs "jar" then true
  else if ext = cs "xml" ∧ isXmlContent content then
    containsSub content (cs "xmlns:osb") || containsSub content (cs "proxy-service") ||
      containsSub content (cs "business-service")
  else false

/-- The `/<proxy-service[^>]*name="([^"]*)"[^>]*>/g` regex. -/
def proxyTagPat : List RE :=
  [.lit (cs "<proxy-service"), .notStar '>', .lit (cs "name=\""), .grpNotStar '"',
   .lit (cs "\""), .notStar '>', .lit (cs ">")]

/-- The dynamically built
`<proxy-service[^>]*name="NAME"[\s\S]*?</proxy-service>` regex (`i` flag);
the interpolated name is modelled as literal characters. -/
def blockPat (serviceName : List Char) : List RE :=
  [.lit (cs "<proxy-service"), .notStar '>',
   .lit (cs "name=\"" ++ serviceName ++ cs "\""), .dotAllLazy,
   .lit (cs "</proxy-service>")]

/-- The `/<http:method>([^<]*)<\/http:method>/gi` regex. -/
def httpMethodPat : List RE :=
  [.lit (cs "<http:method>"), .grpNotStar '<', .lit (cs "</http:method>")]

/-- The `/<xsl:stylesheet[^>]*>/g` regex. -/
def xsltPat : List RE := [.lit (cs "<xsl:stylesheet"), .notStar '>', .lit (cs ">")]

/-- Mirrors `OSBParser.extractRestMethods` (uppercased method texts, skipping
empty captures, defaulting to `["GET","POST"]`). -/
def extractRestMethods (xml : List Char) : List (List Char) :=
  let methods := (allMatches true httpMethodPat xml).foldl (fun acc m =>
    match firstCapture false gtLtPat m with
    | some v => if v.isEmpty then acc else acc ++ [upperCs v]
    | none => acc) []
  if methods.isEmpty then [cs "GET", cs "POST"] else methods

/-- Mirrors `OSBParser.extractServiceConfig`. -/
def extractServiceConfig (content serviceName : List Char) : OsbConfig :=
  match firstWhole true (blockPat serviceName) content with
  | none => OsbConfig.empty
  | some serviceXml =>
    { type := some (if containsSub serviceXml (cs "rest-") then cs "REST" else cs "SOAP")
      endpoint := jsStrOr (extractValue serviceXml "endpoint-uri") (extractValue serviceXml "uri")
      serviceUri := extractValue serviceXml "service-uri"
      endpointUri := extractValue serviceXml "endpoint-uri"
      wsdlResource := extractValue serviceXml "wsdl-resource"
      description := extractValue serviceXml "description"
      methods := some (if containsSub serviceXml (cs "rest-") then extractRestMethods serviceXml
                       else [cs "POST"])
      requestSchema := extractValue serviceXml "request-type"
      responseSchema := extractValue serviceXml "response-type" }

/-- The service names scanned out of the proxy-service tags (the loop guard
`if (nameMatch)` becomes `filterMap`; it never actually fails since every
matched tag contains `name="`). -/
def serviceNames (content : List Char) : List (List Char) :=
  (allMatches false proxyTagPat content).filterMap (fun m => firstCapture false namePat m)

/-- The `UnifiedService` pushed per proxy-service block. -/
def mkService (content serviceName : List Char) : UnifiedService :=
  let serviceConfig := extractServiceConfig content serviceName
  { name := some (Json.str serviceName)
    type := jsStrOrD serviceConfig.type (cs "SOAP")
    platform := cs "OSB"
    endpoint := (serviceConfig.endpoint).map Json.str
    methods := (serviceConfig.methods).map (fun ms => ms.map Json.str)
    description := (serviceConfig.description).map Json.str
    requestSchema := (serviceConfig.requestSchema).map Json.str
    responseSchema := (serviceConfig.responseSchema).map Json.str }

/-- The `ProxyRecord` pushed per proxy-service block. -/
def mkProxy (content serviceName : List Char) : ProxyRecord :=
  let serviceConfig := extractServiceConfig content serviceName
  { name := some (Json.str serviceName)
    serviceUri := (serviceConfig.serviceUri).map Json.str
    endpointUri := (serviceConfig.endpointUri).map Json.str
    wsdlResource := (serviceConfig.wsdlResource).map Json.str
    configuration := .osb serviceConfig }

/-- Mirrors `OSBParser.parse`.  The source pushes the service and the proxy
record in one loop over the same name list; the two `map`s are that loop. -/
def parse (filename content now : List Char) : Except ParseError ParseResult :=
  let names := if isXmlContent content then serviceNames content else []
  let services := names.map (mkService content)
  let proxyServices := names.map (mkProxy content)
  let transformations : List TransformationRecord :=
    if isXmlContent content then
      ((allMatches false xsltPat content).enum).map (fun p =>
        { name := some (Json.str (cs "XSLT_Transform_" ++ natCs (p.1 + 1)))
          type := Json.str (cs "XSLT")
          sourceSchema := some (Json.str (cs "auto-detected"))
          targetSchema := some (Json.str (cs "auto-detected"))
          mappingConfiguration := .xslt p.2 })
    else []
  .ok { services, proxyServices, transformations,
        metadata := { platform := cs "OSB", filename, parsedAt := now,
                      serviceCount := services.length,
                      proxyServiceCount := proxyServices.length,
                      transformationCount := transformations.length } }

end OSBParser

/-! ## Tibco parser (`server/parsers/tibco-parser.ts`) -/

namespace TibcoParser

/-- Mirrors `TibcoParser.canParse` (note: unlike OSB, the content-signature
check is not restricted to any extension). -/
def canParse (filename content : List Char) : Bool :=
  let ext := extractFileExtension filename
  if ext = cs "ear" ∨ ext = cs "xml" ∨ ext = cs "process" then true
  else if isXmlContent content then
    containsSub content (cs "xmlns:tibco") ||
      containsSub content (cs "pd:ProcessDefinition") ||
      containsSub content (cs "tibco.plugin")
  else false

/-- The `/<pd:ProcessDefinition[^>]*name="([^"]*)"[^>]*>/g` regex. -/
def procTagPat : List RE :=
  [.lit (cs "<pd:ProcessDefinition"), .notStar '>', .lit (cs "name=\""),
   .grpNotStar '"', .lit (cs "\""), .notStar '>', .lit (cs ">")]

/-- The dynamically built
`<pd:ProcessDefinition[^>]*name="NAME"[\s\S]*?</pd:ProcessDefinition>` regex
(`i` flag). -/
def blockPat (processName : List Char) : List RE :=
  [.lit (cs "<pd:ProcessDefinition"), .notStar '>',
   .lit (cs "name=\"" ++ processName ++ cs "\""), .dotAllLazy,
   .lit (cs "</pd:ProcessDefinition>")]

/-- The `/<pd:activity[^>]*name="HTTP Receiver"[^>]*>/g` regex. -/
def receiverPat : List RE :=
  [.lit (cs "<pd:activity"), .notStar '>', .lit (cs "name=\"HTTP Receiver\""),
   .notStar '>', .lit (cs ">")]

/-- The `/<pd:activity[^>]*type="com\.tibco\.plugin\.mapper\.MapperActivity"[^>]*>/g`
regex. -/
def mapperPat : List RE :=
  [.lit (cs "<pd:activity"), .notStar '>',
   .lit (cs "type=\"com.tibco.plugin.mapper.MapperActivity\""), .notStar '>',
   .lit (cs ">")]

/-- The `/<method>([^<]*)<\/method>/gi` regex. -/
def methodPat : List RE := [.lit (cs "<method>"), .grpNotStar '<', .lit (cs "</method>")]

/-- The `/<config[^>]*>[\s\S]*?<value>([^<]*)<\/value>[\s\S]*?<\/config>/` regex. -/
def configValuePat : List RE :=
  [.lit (cs "<config"), .notStar '>', .lit (cs ">"), .dotAllLazy,
   .lit (cs "<value>"), .grpNotStar '<', .lit (cs "</value>"), .dotAllLazy,
   .lit (cs "</config>")]

/-- The `/<value>([^<]*)<\/value>/` regex. -/
def valuePat : List RE := [.lit (cs "<value>"), .grpNotStar '<', .lit (cs "</value>")]

/-- Mirrors `TibcoParser.extractHttpMethods` (a `.map`, not a filter: an empty
method text becomes `'POST'`). -/
def extractHttpMethods (xml : List Char) : List (List Char) :=
  let ms := allMatches true methodPat xml
  if ms.isEmpty then [cs "GET", cs "POST"]
  else ms.map (fun m =>
    match firstCapture false gtLtPat m with
    | some v => if v.isEmpty then cs "POST" else upperCs v
    | none => cs "POST")

/-- Mirrors `TibcoParser.extractHttpReceiverPath` (no trimming). -/
def extractHttpReceiverPath (xml : List Char) : Option (List Char) :=
  firstCapture false configValuePat xml

/-- Mirrors `TibcoParser.extractProcessConfig`. -/
def extractProcessConfig (content processName : List Char) : FlowConfig :=
  match firstWhole true (blockPat processName) content with
  | none => FlowConfig.empty
  | some processXml =>
    { endpoint := jsStrOr (extractValue processXml "endpoint")
                          (extractHttpReceiverPath processXml)
      description := extractValue processXml "description"
      methods := some (extractHttpMethods processXml)
      requestSchema := extractValue processXml "inputSchema"
      responseSchema := extractValue processXml "outputSchema" }

/-- Mirrors `TibcoParser.determineServiceType`. -/
def determineServiceType (config : FlowConfig) : List Char :=
  match config.endpoint with
  | some e =>
    if e.isEmpty then cs "REST"
    else if containsSub e (cs "/rest/") || containsSub e (cs "/api/") then cs "REST"
    else if containsSub e (cs "/soap/") || containsSub e (cs "wsdl") then cs "SOAP"
    else cs "REST"
  | none => cs "REST"

/-- Mirrors `TibcoParser.extractHttpReceiverConfig`: find the first occurrence
of the matched activity tag, scan the next 1000 characters for a `<value>`. -/
def extractHttpReceiverConfig (content m : List Char) : List Char :=
  match idxOfSub content m with
  | some i =>
    let configSection := (content.drop i).take 1000
    match firstCapture false valuePat configSection with
    | some v => v
    | none => cs "/default-path"
  | none => cs "/default-path"

/-- The process names scanned out of the `pd:ProcessDefinition` tags. -/
def processNames (content : List Char) : List (List Char) :=
  (allMatches false procTagPat content).filterMap (fun m => firstCapture false namePat m)

/-- The `UnifiedService` pushed per process definition. -/
def mkService (content processName : List Char) : UnifiedService :=
  let processConfig := extractProcessConfig content processName
  { name := some (Json.str processName)
    type := determineServiceType processConfig
    platform := cs "Tibco"
    endpoint := (processConfig.endpoint).map Json.str
    methods := (processConfig.methods).map (fun ms => ms.map Json.str)
    description := (processConfig.description).map Json.str
    requestSchema := (processConfig.requestSchema).map Json.str
    responseSchema := (processConfig.responseSchema).map Json.str }

/-- Mirrors `TibcoParser.parse`. -/
def parse (filename content now : List Char) : Except ParseError ParseResult :=
  let services := if isXmlContent content then
      (processNames content).map (mkService content)
    else []
  let proxyServices : List ProxyRecord := if isXmlContent content then
      ((allMatches false receiverPat content).enum).map (fun p =>
        { name := some (Json.str (cs "HTTP_Receiver_" ++ natCs (p.1 + 1)))
          serviceUri := some (Json.str (extractHttpReceiverConfig content p.2))
          endpointUri := none
          wsdlResource := none
          configuration := .tibcoReceiver p.2 })
    else []
  let transformations : List TransformationRecord := if isXmlContent content then
      ((allMatches false mapperPat content).enum).map (fun p =>
        { name := some (Json.str (cs "Mapper_" ++ natCs (p.1 + 1)))
          type := Json.str (cs "Tibco Mapper")
          sourceSchema := some (Json.str (cs "auto-detected"))
          targetSchema := some (Json.str (cs "auto-detected"))
          mappingConfiguration := .tibcoXml p.2 })
    else []
  .ok { services, proxyServices, transformations,
        metadata := { platform := cs "Tibco", filename, parsedAt := now,
                      serviceCount := services.length,
                      proxyServiceCount := proxyServices.length,
                      transformationCount := transformations.length } }

end TibcoParser

/-! ## Boomi parser (`server/parsers/boomi-parser.ts`) -/

namespace BoomiParser

/-- Mirrors `BoomiParser.canParse`.  The second branch of the source
(`ext === 'json' && isJsonContent`) is kept although it is unreachable: a
`json` extension already returned `true` from the first branch. -/
def canParse (filename content : List Char) : Bool :=
  let ext := extractFileExtension filename
  if ext = cs "zip" ∨ ext = cs "json" then true
  else if ext = cs "json" ∧ isJsonContent content then
    containsSub content (cs "\"componentType\"") ||
      containsSub content (cs "\"processId\"") ||
      containsSub content (cs "\"boomi")
  else false

/-- Mirrors `BoomiParser.determineServiceType` (calling `.toLowerCase()` on a
truthy non-string throws). -/
def determineServiceType (process : Json) : Except (List Char) (List Char) :=
  match jsField process (cs "connectorType") with
  | .error e => .error e
  | .ok ct =>
    if jsOptTruthy ct then
      match ct with
      | some (Json.str s) =>
        let l := lowerCs s
        if l = cs "http" ∨ l = cs "rest" then .ok (cs "REST")
        else if l = cs "soap" ∨ l = cs "web service" then .ok (cs "SOAP")
        else if l = cs "jms" then .ok (cs "JMS")
        else if l = cs "file" ∨ l = cs "ftp" ∨ l = cs "sftp" then .ok (cs "FILE")
        else .ok (cs "REST")
      | _ => .error (cs "toLowerCase is not a function")
    else .ok (cs "REST")

/-- Mirrors `BoomiParser.extractMethods` (`.map` on a truthy non-array
`operations` throws). -/
def extractMethods (process : Json) : Except (List Char) (List Json) :=
  match jsField process (cs "httpMethods") with
  | .error e => .error e
  | .ok hm =>
    if jsOptTruthy hm then
      match hm with
      | some (Json.arr xs) => .ok xs
      | some j => .ok [j]
      | none => .ok []
    else
      match jsField process (cs "operations") with
      | .error e => .error e
      | .ok ops =>
        if jsOptTruthy ops then
          match ops with
          | some (Json.arr xs) =>
            exMapM (fun op =>
              match jsField op (cs "method") with
              | .error e => .error e
              | .ok m => .ok (jsOrVal m (Json.str (cs "POST")))) xs
          | _ => .error (cs "map is not a function")
        else .ok [Json.str (cs "POST")]

/-- The `UnifiedService` pushed per entry of the `processes` array.  Note that
a missing `name` falls back to `processId` and, when that is missing too, the
service is pushed with an `undefined` name — nothing is skipped. -/
def mkService (process : Json) : Except (List Char) UnifiedService :=
  match jsField process (cs "name") with
  | .error e => .error e
  | .ok nm =>
    match jsField process (cs "processId") with
    | .error e => .error e
    | .ok pid =>
      match determineServiceType process with
      | .error e => .error e
      | .ok ty =>
        match jsField process (cs "endpoint") with
        | .error e => .error e
        | .ok ep =>
          match extractMethods process with
          | .error e => .error e
          | .ok ms =>
            match jsField process (cs "description") with
            | .error e => .error e
            | .ok ds =>
              match jsField process (cs "inputSchema") with
              | .error e => .error e
              | .ok rq =>
                match jsField process (cs "outputSchema") with
                | .error e => .error e
                | .ok rs =>
                  .ok { name := jsOr nm pid, type := ty, platform := cs "Boomi",
                        endpoint := ep, methods := some ms, description := ds,
                        requestSchema := rq, responseSchema := rs }

/-- The `ProxyRecord` pushed per entry of the `connectors` array. -/
def mkConnector (connector : Json) : Except (List Char) ProxyRecord :=
  match jsField connector (cs "name") with
  | .error e => .error e
  | .ok nm =>
    match jsField connector (cs "serviceUri") with
    | .error e => .error e
    | .ok su =>
      match jsField connector (cs "endpointUri") with
      | .error e => .error e
      | .ok eu =>
        .ok { name := nm, serviceUri := su, endpointUri := eu,
              wsdlResource := none, configuration := .boomi connector }

/-- The `TransformationRecord` pushed per entry of the `maps` array. -/
def mkMap (m : Json) : Except (List Char) TransformationRecord :=
  match jsField m (cs "name") with
  | .error e => .error e
  | .ok nm =>
    match jsField m (cs "sourceProfile") with
    | .error e => .error e
    | .ok sp =>
      match jsField m (cs "targetProfile") with
      | .error e => .error e
      | .ok tp =>
        match jsField m (cs "mappingRules") with
        | .error e => .error e
        | .ok mr =>
          .ok { name := nm, type := Json.str (cs "Boomi Map"), sourceSchema := sp,
                targetSchema := tp, mappingConfiguration := .boomiRules mr }

/-- One truthiness-guarded `for...of` extraction pass over a config field. -/
def extractArray (config : Json) (key : List Char) (f : Json → Except (List Char) β) :
    Except (List Char) (List β) :=
  match jsField config key with
  | .error e => .error e
  | .ok v =>
    if jsOptTruthy v then
      match jsIterate (v.getD Json.null) with
      | .error e => .error e
      | .ok items => exMapM f items
    else .ok []

/-- The body of `BoomiParser.parse`'s `try` block on a parsed JSON config. -/
def extractAll (config : Json) : Except (List Char) Extracted :=
  match extractArray config (cs "processes") mkService with
  | .error e => .error e
  | .ok services =>
    match extractArray config (cs "connectors") mkConnector with
    | .error e => .error e
    | .ok proxyServices =>
      match extractArray config (cs "maps") mkMap with
      | .error e => .error e
      | .ok transformations => .ok (services, proxyServices, transformations)

/-- The body of `BoomiParser.parse`'s `try` block: non-JSON content silently
yields empty arrays (the `isJsonContent` guard means the `JSON.parse` inside
never throws; its success is threaded through `jsonParse`). -/
def extractContent (content : List Char) : Except (List Char) Extracted :=
  if isJsonContent content then
    match jsonParse content with
    | some config => extractAll config
    | none => .ok ([], [], [])
  else .ok ([], [], [])

/-- Mirrors `BoomiParser.parse`: a thrown extraction error is wrapped as the
`Failed to parse Boomi file` error. -/
def parse (filename content now : List Char) : Except ParseError ParseResult :=
  match extractContent content with
  | .error cause => .error (.parserFailure (cs "Boomi") cause)
  | .ok (services, proxyServices, transformations) =>
    .ok { services, proxyServices, transformations,
          metadata := { platform := cs "Boomi", filename, parsedAt := now,
                        serviceCount := services.length,
                        proxyServiceCount := proxyServices.length,
                        transformationCount := transformations.length } }

end BoomiParser

/-! ## MuleSoft parser (`server/parsers/mulesoft-parser.ts`) -/

namespace MuleSoftParser

/-- Mirrors `MuleSoftParser.canParse`: extension allow-list, then XML
signatures when the content sniffs as XML, else JSON signatures when it
parses as JSON. -/
def canParse (filename content : List Char) : Bool :=
  let ext := extractFileExtension filename
  if ext = cs "jar" ∨ ext = cs "xml" ∨ ext = cs "json" then true
  else if isXmlContent content then
    containsSub content (cs "mule xmlns") ||
      containsSub content (cs "http://www.mulesoft.org") ||
      containsSub content (cs "mule-config")
  else if isJsonContent content then
    containsSub content (cs "\"muleVersion\"") ||
      containsSub content (cs "\"flows\"") ||
      containsSub content (cs "\"mule")
  else false

/-- The `/<flow[^>]*name="([^"]*)"[^>]*>/g` regex. -/
def flowTagPat : List RE :=
  [.lit (cs "<flow"), .notStar '>', .lit (cs "name=\""), .grpNotStar '"',
   .lit (cs "\""), .notStar '>', .lit (cs ">")]

/-- The dynamically built `<flow[^>]*name="NAME"[\s\S]*?</flow>` regex
(`i` flag). -/
def blockPat (flowName : List Char) : List RE :=
  [.lit (cs "<flow"), .notStar '>', .lit (cs "name=\"" ++ flowName ++ cs "\""),
   .dotAllLazy, .lit (cs "</flow>")]

/-- The `/<http:listener[^>]*>/g` regex. -/
def listenerPat : List RE := [.lit (cs "<http:listener"), .notStar '>', .lit (cs ">")]

/-- The `/<http:listener[^>]*path="([^"]*)"/` regex. -/
def listenerPathPat : List RE :=
  [.lit (cs "<http:listener"), .notStar '>', .lit (cs "path=\""), .grpNotStar '"',
   .lit (cs "\"")]

/-- The `/path="([^"]*)"/` regex. -/
def pathPat : List RE := [.lit (cs "path=\""), .grpNotStar '"', .lit (cs "\"")]

/-- The `/config-ref="([^"]*)"/` regex. -/
def configRefPat : List RE := [.lit (cs "config-ref=\""), .grpNotStar '"', .lit (cs "\"")]

/-- The `/allowedMethods="([^"]*)"/` regex. -/
def allowedMethodsPat : List RE :=
  [.lit (cs "allowedMethods=\""), .grpNotStar '"', .lit (cs "\"")]

/-- The `/<dw:transform-message[^>]*>[\s\S]*?<\/dw:transform-message>/g` regex. -/
def dwPat : List RE :=
  [.lit (cs "<dw:transform-message"), .notStar '>', .lit (cs ">"), .dotAllLazy,
   .lit (cs "</dw:transform-message>")]

/-- Mirrors `MuleSoftParser.extractHttpListenerPath`. -/
def extractHttpListenerPath (xml : List Char) : Option (List Char) :=
  firstCapture false listenerPathPat xml

/-- Mirrors `MuleSoftParser.extractHttpMethods` (split on commas, trim and
uppercase each part, default `["GET","POST"]`). -/
def extractHttpMethods (xml : List Char) : List (List Char) :=
  match firstCapture false allowedMethodsPat xml with
  | some v => (splitOnComma v).map (fun m => upperCs (trimCs m))
  | none => [cs "GET", cs "POST"]

/-- Mirrors `MuleSoftParser.extractFlowConfig`. -/
def extractFlowConfig (content flowName : List Char) : FlowConfig :=
  match firstWhole true (blockPat flowName) content with
  | none => FlowConfig.empty
  | some flowXml =>
    { endpoint := extractHttpListenerPath flowXml
      description := extractValue flowXml "doc:description"
      methods := some (extractHttpMethods flowXml)
      requestSchema := extractValue flowXml "request-type"
      responseSchema := extractValue flowXml "response-type" }

/-- Mirrors `MuleSoftParser.determineServiceType`. -/
def determineServiceType (config : FlowConfig) : List Char :=
  match config.endpoint with
  | some e =>
    if e.isEmpty then cs "REST"
    else if containsSub e (cs "/api/") || containsSub e (cs "/rest/") then cs "REST"
    else if containsSub e (cs "/soap/") then cs "SOAP"
    else cs "REST"
  | none => cs "REST"

/-- The flow names scanned out of the `<flow ...>` tags. -/
def flowNames (content : List Char) : List (List Char) :=
  (allMatches false flowTagPat content).filterMap (fun m => firstCapture false namePat m)

/-- The `UnifiedService` pushed per XML flow. -/
def mkService (content flowName : List Char) : UnifiedService :=
  let flowConfig := extractFlowConfig content flowName
  { name := some (Json.str flowName)
    type := determineServiceType flowConfig
    platform := cs "MuleSoft"
    endpoint := (flowConfig.endpoint).map Json.str
    methods := (flowConfig.methods).map (fun ms => ms.map Json.str)
    description := (flowConfig.description).map Json.str
    requestSchema := (flowConfig.requestSchema).map Json.str
    responseSchema := (flowConfig.responseSchema).map Json.str }

/-- The XML-path extraction triple of `MuleSoftParser.parseXmlContent`. -/
def extractXml (content : List Char) : Extracted :=
  let services := (flowNames content).map (mkService content)
  let proxyServices := ((allMatches false listenerPat content).enum).map (fun p =>
    ({ name := some (Json.str (cs "HTTP_Listener_" ++ natCs (p.1 + 1)))
       serviceUri := some (Json.str (match firstCapture false pathPat p.2 with
         | some v => v
         | none => cs "/default"))
       endpointUri := some (Json.str (match firstCapture false configRefPat p.2 with
         | some v => v
         | none => cs "default-config"))
       wsdlResource := none
       configuration := ProxyConfiguration.muleXml p.2 } : ProxyRecord))
  let transformations := ((allMatches false dwPat content).enum).map (fun p =>
    ({ name := some (Json.str (cs "DataWeave_Transform_" ++ natCs (p.1 + 1)))
       type := Json.str (cs "DataWeave")
       sourceSchema := some (Json.str (cs "auto-detected"))
       targetSchema := some (Json.str (cs "auto-detected"))
       mappingConfiguration := MappingConfiguration.dataweave p.2 } : TransformationRecord))
  (services, proxyServices, transformations)

/-- Mirrors `MuleSoftParser.determineServiceTypeFromJson`
(`flow.source?.type === '...'` chains). -/
def determineServiceTypeFromJson (flow : Json) : Except (List Char) (List Char) :=
  match jsField flow (cs "source") with
  | .error e => .error e
  | .ok src =>
    match jsOptChain src (cs "type") with
    | .error e => .error e
    | .ok st =>
      match st with
      | some (Json.str s) =>
        if s = cs "http" then .ok (cs "REST")
        else if s = cs "soap" then .ok (cs "SOAP")
        else if s = cs "jms" then .ok (cs "JMS")
        else if s = cs "file" then .ok (cs "FILE")
        else .ok (cs "REST")
      | _ => .ok (cs "REST")

/-- Mirrors `MuleSoftParser.extractMethodsFromJson`. -/
def extractMethodsFromJson (flow : Json) : Except (List Char) (List Json) :=
  match jsField flow (cs "source") with
  | .error e => .error e
  | .ok src =>
    match jsOptChain src (cs "allowedMethods") with
    | .error e => .error e
    | .ok am =>
      if jsOptTruthy am then
        match am with
        | some (Json.arr xs) => .ok xs
        | some j => .ok [j]
        | none => .ok []
      else .ok [Json.str (cs "GET"), Json.str (cs "POST")]

/-- The `UnifiedService` pushed per entry of the JSON `flows` array. -/
def mkServiceJson (flow : Json) : Except (List Char) UnifiedService :=
  match jsField flow (cs "name") with
  | .error e => .error e
  | .ok nm =>
    match determineServiceTypeFromJson flow with
    | .error e => .error e
    | .ok ty =>
      match jsField flow (cs "source") with
      | .error e => .error e
      | .ok src =>
        match jsOptChain src (cs "path") with
        | .error e => .error e
        | .ok p =>
          match jsField flow (cs "endpoint") with
          | .error e => .error e
          | .ok epAlt =>
            match extractMethodsFromJson flow with
            | .error e => .error e
            | .ok ms =>
              match jsField flow (cs "description") with
              | .error e => .error e
              | .ok ds =>
                match jsField flow (cs "inputSchema") with
                | .error e => .error e
                | .ok rq =>
                  match jsField flow (cs "outputSchema") with
                  | .error e => .error e
                  | .ok rs =>
                    .ok { name := nm, type := ty, platform := cs "MuleSoft",
                          endpoint := jsOr p epAlt, methods := some ms,
                          description := ds, requestSchema := rq,
                          responseSchema := rs }

/-- The `ProxyRecord` pushed per entry of the JSON `connectors` array. -/
def mkConnectorJson (connector : Json) : Except (List Char) ProxyRecord :=
  match jsField connector (cs "name") with
  | .error e => .error e
  | .ok nm =>
    match jsField connector (cs "path") with
    | .error e => .error e
    | .ok p =>
      match jsField connector (cs "host") with
      | .error e => .error e
      | .ok h =>
        .ok { name := nm, serviceUri := p, endpointUri := h,
              wsdlResource := none, configuration := .muleJson connector }

/-- The `TransformationRecord` pushed per entry of the JSON `transformations`
array. -/
def mkTransformJson (t : Json) : Except (List Char) TransformationRecord :=
  match jsField t (cs "name") with
  | .error e => .error e
  | .ok nm =>
    match jsField t (cs "type") with
    | .error e => .error e
    | .ok ty =>
      match jsField t (cs "inputMimeType") with
      | .error e => .error e
      | .ok sm =>
        match jsField t (cs "outputMimeType") with
        | .error e => .error e
        | .ok tm =>
          match jsField t (cs "script") with
          | .error e => .error e
          | .ok sc =>
            .ok { name := nm, type := jsOrVal ty (Json.str (cs "DataWeave")),
                  sourceSchema := sm, targetSchema := tm,
                  mappingConfiguration := .muleScript sc }

/-- The JSON-path extraction of `MuleSoftParser.parseJsonContent`. -/
def extractJson (config : Json) : Except (List Char) Extracted :=
  match BoomiParser.extractArray config (cs "flows") mkServiceJson with
  | .error e => .error e
  | .ok services =>
    match BoomiParser.extractArray config (cs "connectors") mkConnectorJson with
    | .error e => .error e
    | .ok proxyServices =>
      match BoomiParser.extractArray config (cs "transformations") mkTransformJson with
      | .error e => .error e
      | .ok transformations => .ok (services, proxyServices, transformations)

/-- The body of `MuleSoftParser.parse`'s `try` block: XML-sniffing content
goes through the regex path, otherwise JSON-parsable content through the JSON
path, otherwise everything stays empty. -/
def extractContent (content : List Char) : Except (List Char) Extracted :=
  if isXmlContent content then .ok (extractXml content)
  else if isJsonContent content then
    match jsonParse content with
    | some config => extractJson config
    | none => .ok ([], [], [])
  else .ok ([], [], [])

/-- Mirrors `MuleSoftParser.parse`: a thrown extraction error is wrapped as
the `Failed to parse MuleSoft file` error. -/
def parse (filename content now : List Char) : Except ParseError ParseResult :=
  match extractContent content with
  | .error cause => .error (.parserFailure (cs "MuleSoft") cause)
  | .ok (services, proxyServices, transformations) =>
    .ok { services, proxyServices, transformations,
          metadata := { platform := cs "MuleSoft", filename, parsedAt := now,
                        serviceCount := services.length,
                        proxyServiceCount := proxyServices.length,
                        transformationCount := transformations.length } }

end MuleSoftParser

/-! ## The parser registry (`server/parsers/index.ts`) -/

/-- One registered matcher/extractor pair. -/
structure RegisteredParser where
  platform : List Char
  canParse : List Char → List Char → Bool
  parse : List Char → List Char → List Char → Except ParseError ParseResult

namespace ParserRegistry

/-- The registry's fixed, load-time list: OSB, Boomi, Tibco, MuleSoft. -/
def parsers : List RegisteredParser :=
  [{ platform := cs "OSB", canParse := OSBParser.canParse, parse := OSBParser.parse },
   { platform := cs "Boomi", canParse := BoomiParser.canParse, parse := BoomiParser.parse },
   { platform := cs "Tibco", canParse := TibcoParser.canParse, parse := TibcoParser.parse },
   { platform := cs "MuleSoft", canParse := MuleSoftParser.canParse, parse := MuleSoftParser.parse }]

/-- Mirrors `ParserRegistry.detectPlatform`: first accepting parser's
platform, else `"Unknown"`. -/
def detectPlatform (filename content : List Char) : List Char :=
  match parsers.find? (fun p => p.canParse filename content) with
  | some p => p.platform
  | none => cs "Unknown"

/-- Mirrors `ParserRegistry.parseFile`: first accepting parser's result, else
the `No parser found for file` error. -/
def parseFile (filename content now : List Char) : Except ParseError ParseResult :=
  match parsers.find? (fun p => p.canParse filename content) with
  | some p => p.parse filename content now
  | none => .error (.noParserFound filename)

end ParserRegistry

/-! ## Concrete artifacts and expected records used by the claim theorems -/

/-- The spec's end-to-end MuleSoft artifact. -/
def orderFlowXml : List Char :=
  cs "<mule xmlns=\"http://www.mulesoft.org\"><flow name=\"OrderFlow\"><http:listener path=\"/orders\" allowedMethods=\"GET,POST\"/></flow></mule>"

/-- The service the MuleSoft extractor builds for `orderFlowXml`. -/
def orderFlowService : UnifiedService :=
  { name := some (Json.str (cs "OrderFlow"))
    type := cs "REST"
    platform := cs "MuleSoft"
    endpoint := some (Json.str (cs "/orders"))
    methods := some [Json.str (cs "GET"), Json.str (cs "POST")]
    description := none
    requestSchema := none
    responseSchema := none }

/-- The proxy record the MuleSoft extractor builds for `orderFlowXml`. -/
def orderFlowProxy : ProxyRecord :=
  { name := some (Json.str (cs "HTTP_Listener_1"))
    serviceUri := some (Json.str (cs "/orders"))
    endpointUri := some (Json.str (cs "default-config"))
    wsdlResource := none
    configuration := .muleXml
      (cs "<http:listener path=\"/orders\" allowedMethods=\"GET,POST\"/>") }

/-- A `.xml` artifact carrying Tibco and MuleSoft markers and an OSB marker. -/
def dualMarkerOsbXml : List Char := cs "<x proxy-service pd:ProcessDefinition mule xmlns"

/-- A `.xml` artifact carrying Tibco and MuleSoft markers only. -/
def dualMarkerXml : List Char := cs "<pd:ProcessDefinition mule xmlns"

/-- A Boomi document with one process entry lacking both `name` and
`processId`. -/
def boomiNamelessJson : List Char := cs "\x7b\"processes\":[\x7b\"endpoint\":\"/x\"\x7d]\x7d"

/-- The service the Boomi extractor builds for the nameless entry of
`boomiNamelessJson`: its `name` is `undefined`. -/
def boomiNamelessService : UnifiedService :=
  { name := none
    type := cs "REST"
    platform := cs "Boomi"
    endpoint := some (Json.str (cs "/x"))
    methods := some [Json.str (cs "POST")]
    description := none
    requestSchema := none
    responseSchema := none }

/-- A Boomi document with one well-formed and one malformed (no `name`, no
`processId`) process entry. -/
def boomiMixedJson : List Char :=
  cs "\x7b\"processes\":[\x7b\"name\":\"Good\"\x7d,\x7b\"malformed\":true\x7d]\x7d"

/-- A Boomi document with one named entry and one entry carrying only a
`processId`. -/
def boomiProcessIdJson : List Char :=
  cs "\x7b\"processes\":[\x7b\"name\":\"A\"\x7d,\x7b\"processId\":\"p2\"\x7d]\x7d"

/-- An OSB proxy-service block with no `<http:method>` tags and no `rest-`
substring. -/
def osbSoapArtifact : List Char :=
  cs "<proxy-service name=\"Pay\"><endpoint-uri>http://b</endpoint-uri></proxy-service>"

/-- An OSB proxy-service block with a `rest-` marker and no `<http:method>`
tags. -/
def osbRestArtifact : List Char :=
  cs "<proxy-service name=\"Pay\"><rest-binding/></proxy-service>"

/-- Structural agreement of two `parseFile` outcomes on every field except
`metadata.parsedAt` (the timestamp). -/
def resultsAgreeExceptParsedAt : Except ParseError ParseResult → Except ParseError ParseResult → Prop
  | .ok r1, .ok r2 =>
    r1.services = r2.services ∧ r1.proxyServices = r2.proxyServices ∧
      r1.transformations = r2.transformations ∧
      r1.metadata.platform = r2.metadata.platform ∧
      r1.metadata.filename = r2.metadata.filename ∧
      r1.metadata.serviceCount = r2.metadata.serviceCount ∧
      r1.metadata.proxyServiceCount = r2.metadata.proxyServiceCount ∧
      r1.metadata.transformationCount = r2.metadata.transformationCount
  | .error e1, .error e2 => e1 = e2
  | _, _ => False

/-- The `type` enum promised by the `UnifiedService` schema. -/
def serviceTypeOk (s : UnifiedService) : Prop :=
  s.type = cs "REST" ∨ s.type = cs "SOAP" ∨ s.type = cs "JMS" ∨ s.type = cs "FILE"

/-- The `platform` enum promised by the `UnifiedService` schema (extracted
services never carry `Unknown`). -/
def servicePlatformOk (s : UnifiedService) : Prop :=
  s.platform = cs "OSB" ∨ s.platform = cs "Boomi" ∨ s.platform = cs "Tibco" ∨
    s.platform = cs "MuleSoft"

/-- The result the Boomi extractor produces for `boomiNamelessJson`. -/
def boomiNamelessResult : ParseResult :=
  { services := [boomiNamelessService]
    proxyServices := []
    transformations := []
    metadata := { platform := cs "Boomi", filename := cs "one.json", parsedAt := cs "T",
                  serviceCount := 1, proxyServiceCount := 0, transformationCount := 0 } }

/-! ## Helper lemmas about the registry chain -/

/-- `parseFile` unfolded: the first-match loop over the fixed four-parser
list is the OSB / Boomi / Tibco / MuleSoft cascade. -/
theorem parseFile_eq_chain (fn c now : List Char) :
    ParserRegistry.parseFile fn c now =
      (if OSBParser.canParse fn c then OSBParser.parse fn c now
       else if BoomiParser.canParse fn c then BoomiParser.parse fn c now
       else if TibcoParser.canParse fn c then TibcoParser.parse fn c now
       else if MuleSoftParser.canParse fn c then MuleSoftParser.parse fn c now
       else .error (.noParserFound fn)) := by
  unfold ParserRegistry.parseFile ParserRegistry.parsers
  by_cases h1 : OSBParser.canParse fn c <;> by_cases h2 : BoomiParser.canParse fn c <;>
    by_cases h3 : TibcoParser.canParse fn c <;> by_cases h4 : MuleSoftParser.canParse fn c <;>
      simp [List.find?, h1, h2, h3, h4]

/-- `detectPlatform` unfolded to the same cascade. -/
theorem detectPlatform_eq_chain (fn c : List Char) :
    ParserRegistry.detectPlatform fn c =
      (if OSBParser.canParse fn c then cs "OSB"
       else if BoomiParser.canParse fn c then cs "Boomi"
       else if TibcoParser.canParse fn c then cs "Tibco"
       else if MuleSoftParser.canParse fn c then cs "MuleSoft"
       else cs "Unknown") := by
  unfold ParserRegistry.detectPlatform ParserRegistry.parsers
  by_cases h1 : OSBParser.canParse fn c <;> by_cases h2 : BoomiParser.canParse fn c <;>
    by_cases h3 : TibcoParser.canParse fn c <;> by_cases h4 : MuleSoftParser.canParse fn c <;>
      simp [List.find?, h1, h2, h3, h4]

/-- The OSB extractor never throws: it always returns a result. -/
theorem osb_parse_ok (fn c now : List Char) : ∃ r, OSBParser.parse fn c now = .ok r :=
  ⟨_, rfl⟩

/-- The Tibco extractor never throws: it always returns a result. -/
theorem tibco_parse_ok (fn c now : List Char) : ∃ r, TibcoParser.parse fn c now = .ok r :=
  ⟨_, rfl⟩

/-- The Boomi extractor can fail, but never with the registry error. -/
theorem boomi_parse_not_npf (fn c now f : List Char) :
    BoomiParser.parse fn c now ≠ .error (.noParserFound f) := by
  unfold BoomiParser.parse
  rcases he : BoomiParser.extractContent c with e | ⟨s, p, tr⟩ <;> simp [he]

/-- The MuleSoft extractor can fail, but never with the registry error. -/
theorem mule_parse_not_npf (fn c now f : List Char) :
    MuleSoftParser.parse fn c now ≠ .error (.noParserFound f) := by
  unfold MuleSoftParser.parse
  rcases he : MuleSoftParser.extractContent c with e | ⟨s, p, tr⟩ <;> simp [he]

/-! ## Helper lemmas about the matchers -/

theorem osb_can_ext (fn c : List Char)
    (h : extractFileExtension fn = cs "ear" ∨ extractFileExtension fn = cs "jar") :
    OSBParser.canParse fn c = true := by
  unfold OSBParser.canParse
  rcases h with h | h <;> simp [h]

theorem boomi_can_ext (fn c : List Char)
    (h : extractFileExtension fn = cs "zip" ∨ extractFileExtension fn = cs "json") :
    BoomiParser.canParse fn c = true := by
  unfold BoomiParser.canParse
  rcases h with h | h <;> simp [h]

theorem tibco_can_ext (fn c : List Char)
    (h : extractFileExtension fn = cs "ear" ∨ extractFileExtension fn = cs "xml" ∨
         extractFileExtension fn = cs "process") :
    TibcoParser.canParse fn c = true := by
  unfold TibcoParser.canParse
  rcases h with h | h | h <;> simp [h]

/-- The Tibco content-signature check fires for any extension. -/
theorem tibco_can_content (fn c : List Char) (hx : isXmlContent c = true)
    (hm : containsSub c (cs "pd:ProcessDefinition") = true) :
    TibcoParser.canParse fn c = true := by
  unfold TibcoParser.canParse
  by_cases he : (extractFileExtension fn = cs "ear" ∨ extractFileExtension fn = cs "xml" ∨
      extractFileExtension fn = cs "process")
  · simp [he]
  · simp [he, hx, hm]

/-- The MuleSoft content-signature check fires for any extension. -/
theorem mule_can_content (fn c : List Char) (hx : isXmlContent c = true)
    (hm : containsSub c (cs "mule xmlns") = true) :
    MuleSoftParser.canParse fn c = true := by
  unfold MuleSoftParser.canParse
  by_cases he : (extractFileExtension fn = cs "jar" ∨ extractFileExtension fn = cs "xml" ∨
      extractFileExtension fn = cs "json")
  · simp [he]
  · simp [he, hx, hm]

/-- The OSB content-signature check requires the `xml` extension. -/
theorem osb_can_content (fn c : List Char) (hext : extractFileExtension fn = cs "xml")
    (hx : isXmlContent c = true) (hm : containsSub c (cs "proxy-service") = true) :
    OSBParser.canParse fn c = true := by
  unfold OSBParser.canParse
  simp [hext, hx, hm]

/-- The OSB matcher rejects `zip` and `json` files outright. -/
theorem osb_not_can_zip_json (fn c : List Char)
    (h : extractFileExtension fn = cs "zip" ∨ extractFileExtension fn = cs "json") :
    OSBParser.canParse fn c = false := by
  unfold OSBParser.canParse
  rcases h with h | h <;> simp [h] <;>
    exact ⟨by decide, fun hx => absurd hx (by decide)⟩

/-- The OSB matcher rejects an `xml` file carrying none of its markers. -/
theorem osb_not_can_xml_nomarkers (fn c : List Char)
    (hext : extractFileExtension fn = cs "xml")
    (h1 : containsSub c (cs "xmlns:osb") = false)
    (h2 : containsSub c (cs "proxy-service") = false)
    (h3 : containsSub c (cs "business-service") = false) :
    OSBParser.canParse fn c = false := by
  unfold OSBParser.canParse
  simp [hext, h1, h2, h3]
  exact ⟨by decide, by decide⟩

/-- The Boomi matcher rejects `xml` files (its content branch is dead code:
it is guarded by a `json` extension, which already returned `true`). -/
theorem boomi_not_can_xml (fn c : List Char) (hext : extractFileExtension fn = cs "xml") :
    BoomiParser.canParse fn c = false := by
  unfold BoomiParser.canParse
  simp [hext]
  exact ⟨by decide, fun hj => absurd hj (by decide)⟩

/-- The Boomi matcher accepts only on its extension allow-list. -/
theorem boomi_can_ext_only (fn c : List Char) (h : BoomiParser.canParse fn c = true) :
    extractFileExtension fn = cs "zip" ∨ extractFileExtension fn = cs "json" := by
  unfold BoomiParser.canParse at h
  by_cases he : (extractFileExtension fn = cs "zip" ∨ extractFileExtension fn = cs "json")
  · exact he
  · simp [he] at h
    exact absurd h.1.1 (fun hj => he (Or.inr hj))

/-- If some matcher accepts, detection does not fall through to `Unknown`. -/
theorem chain_not_unknown (fn c : List Char)
    (h : OSBParser.canParse fn c = true ∨ BoomiParser.canParse fn c = true ∨
         TibcoParser.canParse fn c = true ∨ MuleSoftParser.canParse fn c = true) :
    ParserRegistry.detectPlatform fn c ≠ cs "Unknown" := by
  rw [detectPlatform_eq_chain]
  by_cases h1 : OSBParser.canParse fn c
  · simp [h1]; decide
  · by_cases h2 : BoomiParser.canParse fn c
    · simp [h1, h2]; decide
    · by_cases h3 : TibcoParser.canParse fn c
      · simp [h1, h2, h3]; decide
      · by_cases h4 : MuleSoftParser.canParse fn c
        · simp [h1, h2, h3, h4]; decide
        · rcases h with h | h | h | h <;> simp_all

/-- If some matcher accepts, `parseFile` never raises the registry error. -/
theorem chain_not_npf (fn c now : List Char)
    (h : OSBParser.canParse fn c = true ∨ BoomiParser.canParse fn c = true ∨
         TibcoParser.canParse fn c = true ∨ MuleSoftParser.canParse fn c = true) :
    ParserRegistry.parseFile fn c now ≠ .error (.noParserFound fn) := by
  rw [parseFile_eq_chain]
  by_cases h1 : OSBParser.canParse fn c
  · obtain ⟨r, hr⟩ := osb_parse_ok fn c now
    simp [h1, hr]
  · by_cases h2 : BoomiParser.canParse fn c
    · simpa [h1, h2] using boomi_parse_not_npf fn c now fn
    · by_cases h3 : TibcoParser.canParse fn c
      · obtain ⟨r, hr⟩ := tibco_parse_ok fn c now
        simp [h1, h2, h3, hr]
      · by_cases h4 : MuleSoftParser.canParse fn c
        · simpa [h1, h2, h3, h4] using mule_parse_not_npf fn c now fn
        · rcases h with h | h | h | h <;> simp_all

/-! ## Helper lemmas: timestamp independence of each extractor -/

theorem osb_parse_agree (fn c t1 t2 : List Char) :
    resultsAgreeExceptParsedAt (OSBParser.parse fn c t1) (OSBParser.parse fn c t2) := by
  unfold OSBParser.parse resultsAgreeExceptParsedAt
  simp

theorem tibco_parse_agree (fn c t1 t2 : List Char) :
    resultsAgreeExceptParsedAt (TibcoParser.parse fn c t1) (TibcoParser.parse fn c t2) := by
  unfold TibcoParser.parse resultsAgreeExceptParsedAt
  simp

theorem boomi_parse_agree (fn c t1 t2 : List Char) :
    resultsAgreeExceptParsedAt (BoomiParser.parse fn c t1) (BoomiParser.parse fn c t2) := by
  unfold BoomiParser.parse
  rcases he : BoomiParser.extractContent c with e | ⟨s, p, tr⟩ <;>
    simp [he, resultsAgreeExceptParsedAt]

theorem mule_parse_agree (fn c t1 t2 : List Char) :
    resultsAgreeExceptParsedAt (MuleSoftParser.parse fn c t1) (MuleSoftParser.parse fn c t2) := by
  unfold MuleSoftParser.parse
  rcases he : MuleSoftParser.extractContent c with e | ⟨s, p, tr⟩ <;>
    simp [he, resultsAgreeExceptParsedAt]

/-! ## Helper lemmas: the enum invariant, per extractor -/

theorem exMapM_mem {α β : Type} (f : α → Except (List Char) β) :
    ∀ (xs : List α) (ys : List β), exMapM f xs = .ok ys → ∀ y ∈ ys, ∃ x, f x = .ok y := by
  intro xs
  induction xs with
  | nil =>
    intro ys h y hy
    unfold exMapM at h
    injection h with h
    subst h
    simp at hy
  | cons x xs ih =>
    intro ys h y hy
    unfold exMapM at h
    rcases hx : f x with e | y'
    · rw [hx] at h; cases h
    · rw [hx] at h
      rcases hxs : exMapM f xs with e | ys'
      · rw [hxs] at h; cases h
      · rw [hxs] at h
        injection h with h
        subst h
        rcases List.mem_cons.1 hy with hy | hy
        · exact ⟨x, by rw [hx, hy]⟩
        · exact ih ys' hxs y hy

/-- Every record produced by a guarded `for...of` pass comes from some
element of the iterated value. -/
theorem extractArray_mem {β : Type} (config : Json) (key : List Char)
    (f : Json → Except (List Char) β) (ys : List β)
    (h : BoomiParser.extractArray config key f = .ok ys) :
    ∀ y ∈ ys, ∃ x, f x = .ok y := by
  unfold BoomiParser.extractArray at h
  split at h
  · cases h
  · split at h
    · split at h
      · cases h
      · exact exMapM_mem f _ ys h
    · injection h with h
      subst h
      simp

/-- The `type` field of an extracted OSB config is absent or enumerated. -/
theorem osb_cfg_type (c n : List Char) :
    (OSBParser.extractServiceConfig c n).type = none ∨
    (OSBParser.extractServiceConfig c n).type = some (cs "REST") ∨
    (OSBParser.extractServiceConfig c n).type = some (cs "SOAP") := by
  unfold OSBParser.extractServiceConfig
  rcases hw : firstWhole true (OSBParser.blockPat n) c with _ | sx
  · left; rfl
  · by_cases hr : containsSub sx (cs "rest-") = true
    · right; left; simp [hr]
    · right; right; simp [hr]

theorem osb_mkService_enum (c n : List Char) :
    ((OSBParser.mkService c n).type = cs "REST" ∨ (OSBParser.mkService c n).type = cs "SOAP") ∧
    (OSBParser.mkService c n).platform = cs "OSB" := by
  have htype : (OSBParser.mkService c n).type =
      jsStrOrD (OSBParser.extractServiceConfig c n).type (cs "SOAP") := rfl
  refine ⟨?_, rfl⟩
  rw [htype]
  rcases osb_cfg_type c n with h | h | h <;> rw [h] <;> decide

theorem tibco_dst_enum (cfg : FlowConfig) :
    TibcoParser.determineServiceType cfg = cs "REST" ∨
    TibcoParser.determineServiceType cfg = cs "SOAP" := by
  unfold TibcoParser.determineServiceType
  split
  · split_ifs <;> simp
  · simp

theorem mule_dst_enum (cfg : FlowConfig) :
    MuleSoftParser.determineServiceType cfg = cs "REST" ∨
    MuleSoftParser.determineServiceType cfg = cs "SOAP" := by
  unfold MuleSoftParser.determineServiceType
  split
  · split_ifs <;> simp
  · simp

theorem boomi_dst_enum (p : Json) (t : List Char)
    (h : BoomiParser.determineServiceType p = .ok t) :
    t = cs "REST" ∨ t = cs "SOAP" ∨ t = cs "JMS" ∨ t = cs "FILE" := by
  unfold BoomiParser.determineServiceType at h
  split at h
  · cases h
  · split at h
    · split at h
      · dsimp only at h
        split_ifs at h <;> simp_all
      · cases h
    · simp_all

theorem boomi_mkService_enum (p : Json) (s : UnifiedService)
    (h : BoomiParser.mkService p = .ok s) :
    (s.type = cs "REST" ∨ s.type = cs "SOAP" ∨ s.type = cs "JMS" ∨ s.type = cs "FILE") ∧
    s.platform = cs "Boomi" := by
  unfold BoomiParser.mkService at h
  repeat' split at h
  all_goals try (cases h)
  refine ⟨boomi_dst_enum p _ (by assumption), rfl⟩

theorem mule_dstj_enum (p : Json) (t : List Char)
    (h : MuleSoftParser.determineServiceTypeFromJson p = .ok t) :
    t = cs "REST" ∨ t = cs "SOAP" ∨ t = cs "JMS" ∨ t = cs "FILE" := by
  unfold MuleSoftParser.determineServiceTypeFromJson at h
  repeat' split at h
  all_goals simp_all

theorem mule_mkServiceJson_enum (p : Json) (s : UnifiedService)
    (h : MuleSoftParser.mkServiceJson p = .ok s) :
    (s.type = cs "REST" ∨ s.type = cs "SOAP" ∨ s.type = cs "JMS" ∨ s.type = cs "FILE") ∧
    s.platform = cs "MuleSoft" := by
  unfold MuleSoftParser.mkServiceJson at h
  repeat' split at h
  all_goals try (cases h)
  refine ⟨mule_dstj_enum p _ (by assumption), rfl⟩

theorem osb_services_enum (fn c now : List Char) (r : ParseResult)
    (h : OSBParser.parse fn c now = .ok r) :
    ∀ s ∈ r.services, serviceTypeOk s ∧ servicePlatformOk s := by
  unfold OSBParser.parse at h
  injection h with h
  subst h
  intro s hs
  dsimp only at hs
  obtain ⟨n, hn, rfl⟩ := List.mem_map.1 hs
  rcases osb_mkService_enum c n with ⟨ht, hp⟩
  exact ⟨ht.elim Or.inl (fun h => Or.inr (Or.inl h)), Or.inl hp⟩

theorem tibco_services_enum (fn c now : List Char) (r : ParseResult)
    (h : TibcoParser.parse fn c now = .ok r) :
    ∀ s ∈ r.services, serviceTypeOk s ∧ servicePlatformOk s := by
  unfold TibcoParser.parse at h
  injection h with h
  subst h
  intro s hs
  dsimp only at hs
  rcases hx : isXmlContent c with _ | _
  all_goals rw [hx] at hs
  · simp at hs
  · obtain ⟨n, hn, rfl⟩ := List.mem_map.1 hs
    have hty : (TibcoParser.mkService c n).type =
        TibcoParser.determineServiceType (TibcoParser.extractProcessConfig c n) := rfl
    rcases tibco_dst_enum (TibcoParser.extractProcessConfig c n) with ht | ht
    · exact ⟨Or.inl (hty.trans ht), Or.inr (Or.inr (Or.inl rfl))⟩
    · exact ⟨Or.inr (Or.inl (hty.trans ht)), Or.inr (Or.inr (Or.inl rfl))⟩

theorem boomi_extractAll_services (config : Json) (svcs : List UnifiedService)
    (ps : List ProxyRecord) (ts : List TransformationRecord)
    (h : BoomiParser.extractAll config = .ok (svcs, ps, ts)) :
    BoomiParser.extractArray config (cs "processes") BoomiParser.mkService = .ok svcs := by
  unfold BoomiParser.extractAll at h
  split at h
  · cases h
  · split at h
    · cases h
    · split at h
      · cases h
      · cases h
        assumption

theorem boomi_extract_services_enum (c : List Char) (svcs : List UnifiedService)
    (ps : List ProxyRecord) (ts : List TransformationRecord)
    (he : BoomiParser.extractContent c = .ok (svcs, ps, ts)) :
    ∀ s ∈ svcs, serviceTypeOk s ∧ servicePlatformOk s := by
  unfold BoomiParser.extractContent at he
  split at he
  · split at he
    · have hsv := boomi_extractAll_services _ _ _ _ he
      intro s hs
      obtain ⟨x, hx⟩ := extractArray_mem _ _ _ _ hsv s hs
      rcases boomi_mkService_enum x s hx with ⟨ht, hp⟩
      exact ⟨ht, Or.inr (Or.inl hp)⟩
    · cases he
      intro s hs
      simp at hs
  · cases he
    intro s hs
    simp at hs

theorem boomi_services_enum (fn c now : List Char) (r : ParseResult)
    (h : BoomiParser.parse fn c now = .ok r) :
    ∀ s ∈ r.services, serviceTypeOk s ∧ servicePlatformOk s := by
  unfold BoomiParser.parse at h
  rcases he : BoomiParser.extractContent c with e | ⟨svcs, ps, ts⟩
  · rw [he] at h; cases h
  · rw [he] at h
    injection h with h
    subst h
    intro s hs
    dsimp only at hs
    exact boomi_extract_services_enum c svcs ps ts he s hs

theorem mule_extractJson_services (config : Json) (svcs : List UnifiedService)
    (ps : List ProxyRecord) (ts : List TransformationRecord)
    (h : MuleSoftParser.extractJson config = .ok (svcs, ps, ts)) :
    BoomiParser.extractArray config (cs "flows") MuleSoftParser.mkServiceJson = .ok svcs := by
  unfold MuleSoftParser.extractJson at h
  split at h
  · cases h
  · split at h
    · cases h
    · split at h
      · cases h
      · cases h
        assumption

theorem mule_extract_services_enum (c : List Char) (svcs : List UnifiedService)
    (ps : List ProxyRecord) (ts : List TransformationRecord)
    (he : MuleSoftParser.extractContent c = .ok (svcs, ps, ts)) :
    ∀ s ∈ svcs, serviceTypeOk s ∧ servicePlatformOk s := by
  unfold MuleSoftParser.extractContent at he
  split at he
  · injection he with he
    intro s hs
    have h1 : (MuleSoftParser.extractXml c).1 = svcs := by rw [he]
    rw [← h1] at hs
    unfold MuleSoftParser.extractXml at hs
    dsimp only at hs
    obtain ⟨n, hn, rfl⟩ := List.mem_map.1 hs
    have hty : (MuleSoftParser.mkService c n).type =
        MuleSoftParser.determineServiceType (MuleSoftParser.extractFlowConfig c n) := rfl
    rcases mule_dst_enum (MuleSoftParser.extractFlowConfig c n) with ht | ht
    · exact ⟨Or.inl (hty.trans ht), Or.inr (Or.inr (Or.inr rfl))⟩
    · exact ⟨Or.inr (Or.inl (hty.trans ht)), Or.inr (Or.inr (Or.inr rfl))⟩
  · split at he
    · split at he
      · have hsv := mule_extractJson_services _ _ _ _ he
        intro s hs
        obtain ⟨x, hx⟩ := extractArray_mem _ _ _ _ hsv s hs
        rcases mule_mkServiceJson_enum x s hx with ⟨ht, hp⟩
        exact ⟨ht, Or.inr (Or.inr (Or.inr hp))⟩
      · cases he
        intro s hs
        simp at hs
    · cases he
      intro s hs
      simp at hs

theorem mule_services_enum (fn c now : List Char) (r : ParseResult)
    (h : MuleSoftParser.parse fn c now = .ok r) :
    ∀ s ∈ r.services, serviceTypeOk s ∧ servicePlatformOk s := by
  unfold MuleSoftParser.parse at h
  rcases he : MuleSoftParser.extractContent c with e | ⟨svcs, ps, ts⟩
  · rw [he] at h; cases h
  · rw [he] at h
    injection h with h
    subst h
    intro s hs
    dsimp only at hs
    exact mule_extract_services_enum c svcs ps ts he s hs

/-! ## The claims -/

/-- Claim C1, counterexample: on `mulesoft.xml` with the end-to-end MuleSoft
content, `parseFile` does not return the claimed MuleSoft service — the
Tibco matcher wins on the `.xml` extension and its extractor finds nothing,
so the result has no services and no proxy records at all. -/
theorem C1_counterexample :
    ParserRegistry.parseFile (cs "mulesoft.xml") orderFlowXml (cs "T") =
      .ok ⟨[], [], [], ⟨cs "Tibco", cs "mulesoft.xml", cs "T", 0, 0, 0⟩⟩ := rfl

/-- Claim C1, amended: `parseFile` on `mulesoft.xml` dispatches to the Tibco
parser (first extension match) and returns an empty result with Tibco
metadata; the MuleSoft extractor applied directly to the same artifact
returns exactly the claimed `OrderFlow` REST service with endpoint
`/orders`, methods `GET, POST`, and the `HTTP_Listener_1` proxy record with
service URI `/orders`. -/
theorem C1_amended :
    ParserRegistry.parseFile (cs "mulesoft.xml") orderFlowXml (cs "T") =
      .ok ⟨[], [], [], ⟨cs "Tibco", cs "mulesoft.xml", cs "T", 0, 0, 0⟩⟩ ∧
    MuleSoftParser.parse (cs "mulesoft.xml") orderFlowXml (cs "T") =
      .ok ⟨[orderFlowService], [orderFlowProxy], [],
           ⟨cs "MuleSoft", cs "mulesoft.xml", cs "T", 1, 1, 0⟩⟩ := ⟨rfl, rfl⟩

/-- Claim C2, counterexample: a `.xml` artifact containing both the Tibco
marker and the MuleSoft marker, but also the OSB marker `proxy-service`,
is detected as `OSB`, not `Tibco`. -/
theorem C2_counterexample :
    ParserRegistry.detectPlatform (cs "a.xml") dualMarkerOsbXml = cs "OSB" ∧
    cs "OSB" ≠ cs "Tibco" := ⟨rfl, by decide⟩

/-- Claim C2, amended: `detectPlatform` evaluates the matchers in the fixed
order OSB, Boomi, Tibco, MuleSoft and returns the first acceptance; and a
`.xml` artifact containing both the Tibco and the MuleSoft markers is
detected as `Tibco` provided none of the OSB markers (`xmlns:osb`,
`proxy-service`, `business-service`) occurs in its content. -/
theorem C2_amended :
    (∀ fn c : List Char, ParserRegistry.detectPlatform fn c =
      (if OSBParser.canParse fn c then cs "OSB"
       else if BoomiParser.canParse fn c then cs "Boomi"
       else if TibcoParser.canParse fn c then cs "Tibco"
       else if MuleSoftParser.canParse fn c then cs "MuleSoft"
       else cs "Unknown")) ∧
    (∀ fn c : List Char, extractFileExtension fn = cs "xml" →
      containsSub c (cs "xmlns:osb") = false →
      containsSub c (cs "proxy-service") = false →
      containsSub c (cs "business-service") = false →
      containsSub c (cs "pd:ProcessDefinition") = true →
      containsSub c (cs "mule xmlns") = true →
      ParserRegistry.detectPlatform fn c = cs "Tibco") := by
  constructor
  · exact detectPlatform_eq_chain
  · intro fn c hext h1 h2 h3 _ _
    have hosb := osb_not_can_xml_nomarkers fn c hext h1 h2 h3
    have hboomi := boomi_not_can_xml fn c hext
    have htibco := tibco_can_ext fn c (Or.inr (Or.inl hext))
    rw [detectPlatform_eq_chain]
    simp [hosb, hboomi, htibco]

/-- Claim C2, witness: the amended theorem applied to a concrete `.xml`
artifact with both markers and no OSB marker. -/
theorem C2_amended_witness :
    ParserRegistry.detectPlatform (cs "b.xml") dualMarkerXml = cs "Tibco" :=
  C2_amended.2 (cs "b.xml") dualMarkerXml (by decide) (by decide) (by decide) (by decide)
    (by decide) (by decide)

/-- Claim C3, counterexample: a `.txt` artifact whose content carries the OSB
marker `proxy-service` is accepted by no matcher — detection yields
`Unknown` and `parseFile` raises the no-parser error, because the OSB
content check requires an `xml` extension. -/
theorem C3_counterexample :
    ParserRegistry.detectPlatform (cs "a.txt") (cs "<proxy-service/>") = cs "Unknown" ∧
    ParserRegistry.parseFile (cs "a.txt") (cs "<proxy-service/>") (cs "T") =
      .error (.noParserFound (cs "a.txt")) := ⟨rfl, rfl⟩

/-- Claim C3, amended: content signatures guarantee detection only as each
matcher actually consults them.  For the Tibco and MuleSoft markers
(XML-sniffing content), any extension detects; for the OSB marker the
extension must be `xml`; the Boomi matcher never consults content and
accepts `json` (and `zip`) extensions outright.  In each such case
`parseFile` does not raise the no-parser error. -/
theorem C3_amended (fn c now : List Char) :
    (isXmlContent c = true → containsSub c (cs "pd:ProcessDefinition") = true →
      ParserRegistry.detectPlatform fn c ≠ cs "Unknown" ∧
      ParserRegistry.parseFile fn c now ≠ .error (.noParserFound fn)) ∧
    (isXmlContent c = true → containsSub c (cs "mule xmlns") = true →
      ParserRegistry.detectPlatform fn c ≠ cs "Unknown" ∧
      ParserRegistry.parseFile fn c now ≠ .error (.noParserFound fn)) ∧
    (extractFileExtension fn = cs "xml" → isXmlContent c = true →
      containsSub c (cs "proxy-service") = true →
      ParserRegistry.detectPlatform fn c = cs "OSB" ∧
      ParserRegistry.parseFile fn c now ≠ .error (.noParserFound fn)) ∧
    (extractFileExtension fn = cs "json" →
      ParserRegistry.detectPlatform fn c = cs "Boomi" ∧
      ParserRegistry.parseFile fn c now ≠ .error (.noParserFound fn)) := by
  refine ⟨fun hx hm => ?_, fun hx hm => ?_, fun hext hx hm => ?_, fun hext => ?_⟩
  · have ht := tibco_can_content fn c hx hm
    exact ⟨chain_not_unknown fn c (Or.inr (Or.inr (Or.inl ht))),
           chain_not_npf fn c now (Or.inr (Or.inr (Or.inl ht)))⟩
  · have hm' := mule_can_content fn c hx hm
    exact ⟨chain_not_unknown fn c (Or.inr (Or.inr (Or.inr hm'))),
           chain_not_npf fn c now (Or.inr (Or.inr (Or.inr hm')))⟩
  · have ho := osb_can_content fn c hext hx hm
    refine ⟨?_, chain_not_npf fn c now (Or.inl ho)⟩
    rw [detectPlatform_eq_chain]
    simp [ho]
  · have hb := boomi_can_ext fn c (Or.inr hext)
    have hosb := osb_not_can_zip_json fn c (Or.inr hext)
    refine ⟨?_, chain_not_npf fn c now (Or.inr (Or.inl hb))⟩
    rw [detectPlatform_eq_chain]
    simp [hosb, hb]

/-- Claim C3, witness: the amended theorem applied to concrete artifacts,
one per platform. -/
theorem C3_amended_witness :
    (ParserRegistry.detectPlatform (cs "w.bin") (cs "<pd:ProcessDefinition name=\"P\"/>") ≠
      cs "Unknown") ∧
    (ParserRegistry.detectPlatform (cs "w.bin") (cs "<mule xmlns=\"x\"/>") ≠ cs "Unknown") ∧
    (ParserRegistry.detectPlatform (cs "o.xml") (cs "<proxy-service") = cs "OSB") ∧
    (ParserRegistry.detectPlatform (cs "b.json") (cs "x") = cs "Boomi") :=
  ⟨((C3_amended _ _ (cs "T")).1 (by decide) (by decide)).1,
   ((C3_amended _ _ (cs "T")).2.1 (by decide) (by decide)).1,
   ((C3_amended _ _ (cs "T")).2.2.1 (by decide) (by decide) (by decide)).1,
   ((C3_amended _ _ (cs "T")).2.2.2 (by decide)).1⟩

/-- Claim C4, counterexample: a Boomi process entry with neither `name` nor
`processId` still produces a service — with an `undefined` name, violating
the non-empty-name invariant. -/
theorem C4_counterexample :
    (ParserRegistry.parseFile (cs "one.json") boomiNamelessJson (cs "T")).toOption.map
      (fun r => r.services.map (fun s => s.name)) = some [none] := rfl

/-- Claim C4, amended: for every successfully parsed artifact, every service
in the result carries an enumerated `type` (REST, SOAP, JMS or FILE) and an
enumerated `platform` (never `Unknown`, never empty); the name clause of the
original claim is dropped — Boomi services fall back from `name` to
`processId` and keep an `undefined` name when both are missing, and nothing
is skipped or synthesized. -/
theorem C4_amended (fn c now : List Char) (r : ParseResult) (s : UnifiedService)
    (hr : ParserRegistry.parseFile fn c now = .ok r) (hs : s ∈ r.services) :
    serviceTypeOk s ∧ servicePlatformOk s := by
  rw [parseFile_eq_chain] at hr
  by_cases h1 : OSBParser.canParse fn c
  · rw [if_pos h1] at hr
    exact osb_services_enum fn c now r hr s hs
  · rw [if_neg h1] at hr
    by_cases h2 : BoomiParser.canParse fn c
    · rw [if_pos h2] at hr
      exact boomi_services_enum fn c now r hr s hs
    · rw [if_neg h2] at hr
      by_cases h3 : TibcoParser.canParse fn c
      · rw [if_pos h3] at hr
        exact tibco_services_enum fn c now r hr s hs
      · rw [if_neg h3] at hr
        by_cases h4 : MuleSoftParser.canParse fn c
        · rw [if_pos h4] at hr
          exact mule_services_enum fn c now r hr s hs
        · rw [if_neg h4] at hr
          cases hr

/-- Claim C4, witness: the amended theorem applied to the nameless-Boomi
artifact and the service it produces. -/
theorem C4_amended_witness :
    serviceTypeOk boomiNamelessService ∧ servicePlatformOk boomiNamelessService :=
  C4_amended (cs "one.json") boomiNamelessJson (cs "T") boomiNamelessResult
    boomiNamelessService (by rfl) (List.mem_singleton.mpr rfl)

/-- Claim C5, counterexample: the mixed Boomi document yields two services,
not one — the malformed entry is not skipped; it appears with an
`undefined` name. -/
theorem C5_counterexample :
    (ParserRegistry.parseFile (cs "procs.json") boomiMixedJson (cs "T")).toOption.map
      (fun r => r.services.map (fun s => s.name)) =
    some [some (Json.str (cs "Good")), none] := rfl

/-- Claim C5, amended: parsing the mixed Boomi document raises no error and
yields exactly two services: the well-formed entry keeps its name, and the
malformed entry is included with an `undefined` name (or with its
`processId` as name when that field is present). -/
theorem C5_amended :
    ((ParserRegistry.parseFile (cs "procs.json") boomiMixedJson (cs "T")).toOption.map
      (fun r => (r.services.map (fun s => s.name), r.metadata.serviceCount)) =
      some ([some (Json.str (cs "Good")), none], 2)) ∧
    ((ParserRegistry.parseFile (cs "procs2.json") boomiProcessIdJson (cs "T")).toOption.map
      (fun r => r.services.map (fun s => s.name)) =
      some [some (Json.str (cs "A")), some (Json.str (cs "p2"))]) := ⟨rfl, rfl⟩

/-- Claim C6, counterexample: an OSB proxy-service block without
`<http:method>` tags and without a `rest-` marker yields
`methods == ["POST"]`, not `["GET","POST"]`. -/
theorem C6_counterexample :
    ((ParserRegistry.parseFile (cs "svc.xml") osbSoapArtifact (cs "T")).toOption.map
      (fun r => r.services.map (fun s => s.methods)) =
      some [some [Json.str (cs "POST")]]) ∧
    [Json.str (cs "POST")] ≠ [Json.str (cs "GET"), Json.str (cs "POST")] := by
  refine ⟨rfl, fun h => ?_⟩
  injection h with h1 h2
  simp at h2

/-- Claim C6, amended: the `["GET","POST"]` default applies only to
REST-flavoured blocks: `extractRestMethods` returns it whenever no
`<http:method>` tag matches, a `rest-`-marked block without method tags
end-to-end yields `["GET","POST"]`, and a block without the `rest-` marker
yields `["POST"]` regardless of method tags. -/
theorem C6_amended :
    (∀ xml : List Char, allMatches true OSBParser.httpMethodPat xml = [] →
      OSBParser.extractRestMethods xml = [cs "GET", cs "POST"]) ∧
    ((ParserRegistry.parseFile (cs "svc2.xml") osbRestArtifact (cs "T")).toOption.map
      (fun r => r.services.map (fun s => s.methods)) =
      some [some [Json.str (cs "GET"), Json.str (cs "POST")]]) ∧
    ((ParserRegistry.parseFile (cs "svc.xml") osbSoapArtifact (cs "T")).toOption.map
      (fun r => r.services.map (fun s => s.methods)) =
      some [some [Json.str (cs "POST")]]) := by
  refine ⟨?_, rfl, rfl⟩
  intro xml hm
  unfold OSBParser.extractRestMethods
  rw [hm]
  rfl

/-- Claim C6, witness: the default branch of `extractRestMethods` at a
concrete method-free block. -/
theorem C6_amended_witness :
    OSBParser.extractRestMethods (cs "<x/>") = [cs "GET", cs "POST"] :=
  C6_amended.1 (cs "<x/>") (by rfl)

/-- Claim C7, counterexample: a `.json` artifact whose content is not JSON is
accepted by the Boomi matcher (extension alone) and parsed into an ordinary
result with empty arrays and populated metadata — no error is raised. -/
theorem C7_counterexample :
    ParserRegistry.parseFile (cs "bad.json") (cs "certainly not json") (cs "T") =
      .ok ⟨[], [], [], ⟨cs "Boomi", cs "bad.json", cs "T", 0, 0, 0⟩⟩ := rfl

/-- Claim C7, amended: for every artifact the Boomi matcher accepts whose
content does not parse as JSON, `parseFile` returns a result with empty
services, proxies and transformations and populated metadata, raising
nothing — the extraction is guarded by the same JSON check, so the
hard-error path does not exist. -/
theorem C7_amended (fn c now : List Char) (hb : BoomiParser.canParse fn c = true)
    (hj : isJsonContent c = false) :
    ParserRegistry.parseFile fn c now =
      .ok ⟨[], [], [], ⟨cs "Boomi", fn, now, 0, 0, 0⟩⟩ := by
  have hosb : OSBParser.canParse fn c = false :=
    osb_not_can_zip_json fn c (boomi_can_ext_only fn c hb)
  rw [parseFile_eq_chain, if_neg (by simp [hosb]), if_pos hb]
  unfold BoomiParser.parse
  have he : BoomiParser.extractContent c = .ok ([], [], []) := by
    unfold BoomiParser.extractContent
    simp [hj]
  rw [he]
  rfl

/-- Claim C7, witness: the amended theorem applied to a `.zip` artifact with
non-JSON content. -/
theorem C7_amended_witness :
    ParserRegistry.parseFile (cs "b.zip") (cs "hi") (cs "T") =
      .ok ⟨[], [], [], ⟨cs "Boomi", cs "b.zip", cs "T", 0, 0, 0⟩⟩ :=
  C7_amended (cs "b.zip") (cs "hi") (cs "T") (by decide) (by decide)

/-- Claim C8, confirmed: when no matcher accepts, detection yields `Unknown`
and `parseFile` raises the no-parser error; conversely, that error occurs
only when no matcher accepts. -/
theorem C8_no_match_rejected (fn c now : List Char) :
    ((¬ OSBParser.canParse fn c = true ∧ ¬ BoomiParser.canParse fn c = true ∧
      ¬ TibcoParser.canParse fn c = true ∧ ¬ MuleSoftParser.canParse fn c = true) →
      ParserRegistry.detectPlatform fn c = cs "Unknown" ∧
      ParserRegistry.parseFile fn c now = .error (.noParserFound fn)) ∧
    (ParserRegistry.parseFile fn c now = .error (.noParserFound fn) →
      ¬ OSBParser.canParse fn c = true ∧ ¬ BoomiParser.canParse fn c = true ∧
      ¬ TibcoParser.canParse fn c = true ∧ ¬ MuleSoftParser.canParse fn c = true) := by
  constructor
  · rintro ⟨h1, h2, h3, h4⟩
    rw [detectPlatform_eq_chain, parseFile_eq_chain]
    simp [h1, h2, h3, h4]
  · intro h
    by_cases h1 : OSBParser.canParse fn c
    · exact absurd h (chain_not_npf fn c now (Or.inl h1))
    · by_cases h2 : BoomiParser.canParse fn c
      · exact absurd h (chain_not_npf fn c now (Or.inr (Or.inl h2)))
      · by_cases h3 : TibcoParser.canParse fn c
        · exact absurd h (chain_not_npf fn c now (Or.inr (Or.inr (Or.inl h3))))
        · by_cases h4 : MuleSoftParser.canParse fn c
          · exact absurd h (chain_not_npf fn c now (Or.inr (Or.inr (Or.inr h4))))
          · exact ⟨h1, h2, h3, h4⟩

/-- Claim C8, witness: both directions at the `.txt` artifact with no
recognizable markers. -/
theorem C8_no_match_rejected_witness :
    (ParserRegistry.detectPlatform (cs "notes.txt") (cs "hello world") = cs "Unknown" ∧
     ParserRegistry.parseFile (cs "notes.txt") (cs "hello world") (cs "T") =
       .error (.noParserFound (cs "notes.txt"))) ∧
    (¬ OSBParser.canParse (cs "notes.txt") (cs "hello world") = true ∧
     ¬ BoomiParser.canParse (cs "notes.txt") (cs "hello world") = true ∧
     ¬ TibcoParser.canParse (cs "notes.txt") (cs "hello world") = true ∧
     ¬ MuleSoftParser.canParse (cs "notes.txt") (cs "hello world") = true) :=
  ⟨(C8_no_match_rejected (cs "notes.txt") (cs "hello world") (cs "T")).1
     ⟨by decide, by decide, by decide, by decide⟩,
   (C8_no_match_rejected (cs "notes.txt") (cs "hello world") (cs "T")).2 (by rfl)⟩

/-- Claim C9, confirmed: `parseFile` is a pure function of
`(filename, content)` apart from the timestamp — two calls with identical
arguments agree on every service, proxy record, transformation and metadata
field except `parsedAt`. -/
theorem C9_idempotent (fn c t1 t2 : List Char) :
    resultsAgreeExceptParsedAt (ParserRegistry.parseFile fn c t1)
      (ParserRegistry.parseFile fn c t2) := by
  rw [parseFile_eq_chain fn c t1, parseFile_eq_chain fn c t2]
  by_cases h1 : OSBParser.canParse fn c
  · simp only [if_pos h1]
    exact osb_parse_agree fn c t1 t2
  · simp only [if_neg h1]
    by_cases h2 : BoomiParser.canParse fn c
    · simp only [if_pos h2]
      exact boomi_parse_agree fn c t1 t2
    · simp only [if_neg h2]
      by_cases h3 : TibcoParser.canParse fn c
      · simp only [if_pos h3]
        exact tibco_parse_agree fn c t1 t2
      · simp only [if_neg h3]
        by_cases h4 : MuleSoftParser.canParse fn c
        · simp only [if_pos h4]
          exact mule_parse_agree fn c t1 t2
        · simp only [if_neg h4]
          exact rfl

/-- Claim C10, counterexample: for a `.xml` filename — inside the extension
set — the detected platform still depends on the content: an OSB marker
flips detection from `Tibco` to `OSB`, so content signatures are consulted
for in-set extensions too. -/
theorem C10_counterexample :
    ParserRegistry.detectPlatform (cs "a.xml") (cs "<proxy-service") = cs "OSB" ∧
    ParserRegistry.detectPlatform (cs "a.xml") (cs "x") = cs "Tibco" ∧
    cs "OSB" ≠ cs "Tibco" := ⟨rfl, rfl, by decide⟩

/-- Claim C10, amended: every filename whose lower-cased extension is one of
`ear, jar, zip, json, xml, process` is accepted by some matcher on the
extension alone, so detection never yields `Unknown` and `parseFile` never
raises the no-parser error for such filenames; but which platform wins can
still depend on content for `.xml` files (the OSB marker check). -/
theorem C10_amended (fn c now : List Char)
    (h : extractFileExtension fn = cs "ear" ∨ extractFileExtension fn = cs "jar" ∨
         extractFileExtension fn = cs "zip" ∨ extractFileExtension fn = cs "json" ∨
         extractFileExtension fn = cs "xml" ∨ extractFileExtension fn = cs "process") :
    ParserRegistry.detectPlatform fn c ≠ cs "Unknown" ∧
    ParserRegistry.parseFile fn c now ≠ .error (.noParserFound fn) := by
  have hacc : OSBParser.canParse fn c = true ∨ BoomiParser.canParse fn c = true ∨
      TibcoParser.canParse fn c = true ∨ MuleSoftParser.canParse fn c = true := by
    rcases h with h | h | h | h | h | h
    · exact Or.inl (osb_can_ext fn c (Or.inl h))
    · exact Or.inl (osb_can_ext fn c (Or.inr h))
    · exact Or.inr (Or.inl (boomi_can_ext fn c (Or.inl h)))
    · exact Or.inr (Or.inl (boomi_can_ext fn c (Or.inr h)))
    · exact Or.inr (Or.inr (Or.inl (tibco_can_ext fn c (Or.inr (Or.inl h)))))
    · exact Or.inr (Or.inr (Or.inl (tibco_can_ext fn c (Or.inr (Or.inr h)))))
  exact ⟨chain_not_unknown fn c hacc, chain_not_npf fn c now hacc⟩

/-- Claim C10, witness: the amended theorem at a `.zip` artifact with
arbitrary content. -/
theorem C10_amended_witness :
    ParserRegistry.detectPlatform (cs "a.zip") (cs "x") ≠ cs "Unknown" ∧
    ParserRegistry.parseFile (cs "a.zip") (cs "x") (cs "T") ≠
      .error (.noParserFound (cs "a.zip")) :=
  C10_amended (cs "a.zip") (cs "x") (cs "T") (Or.inr (Or.inr (Or.inl (by decide))))
